import Mathlib

/-!
# SQLite-specific Manage facilities (`src/manage_sqlite3.c`)

A shallow embedding of the SQL helper functions of the manager and the
properties established about them.

Conventions of the embedding:

* a C string (`char *`, `gchar *`) that is not `NULL` is a `List Char`;
  a pointer that may be `NULL` is an `Option`;
* `task_t` (a 64-bit row id) is an `Int`; a value stored in an `int` is
  reduced to 32 bits (`to_int`);
* the collaborators that live outside this file (`task_severity`, `sql_int`,
  `severity_matches_ov`, `resource_name`, the other functions of the manager,
  the C library) are parameters of the functions that call them;
* a function with side effects returns the state it leaves behind together
  with its result.
-/

namespace ManageSqlite3

/-- C string that is not `NULL`. -/
abbrev CStr := List Char

/-- Row id of a task (`task_t`). -/
abbrev task_t := Int

/-! ## Severity cache (`sql_severity_t`, `clear_cache`, `cached_task_severity`) -/

/-- Severity.  One slot for calls without overrides, one for calls with. -/
structure sql_severity_t where
  /-- Task. -/
  task : task_t
  /-- Severity (`NULL` is `none`). -/
  severity : Option CStr
  /-- Task, for the overrides slot. -/
  overrides_task : task_t
  /-- Severity, for the overrides slot (`NULL` is `none`). -/
  overrides_severity : Option CStr
deriving DecidableEq, Repr

/-- The initialiser of `static_cache` inside `cached_task_severity`. -/
def static_cache_init : sql_severity_t :=
  { task := 0, severity := none, overrides_task := 0, overrides_severity := none }

/-- The function `clear_cache`: the destructor registered with
`sqlite3_set_auxdata`, run on the cache when the auxiliary data of the
statement is discarded. -/
def clear_cache (cache : sql_severity_t) : sql_severity_t :=
  let cache := { cache with task := 0 }
  let cache := { cache with overrides_task := 0 }
  let cache := { cache with severity := none }
  let cache := { cache with overrides_severity := none }
  cache

/-- What `cached_task_severity` can see and change: the function-static
`static_cache`, and whether `sqlite3_get_auxdata (context, 1)` currently
yields a cache.  The only pointer ever stored as auxiliary data is
`&static_cache`, so a boolean records it. -/
structure CacheCtx where
  /-- The variable `static_cache`. -/
  static_cache : sql_severity_t
  /-- Whether `sqlite3_get_auxdata (context, 1)` is non-`NULL`. -/
  auxdata : Bool
deriving DecidableEq, Repr

/-- Result of one call of `cached_task_severity`: the returned pointer, the
state left behind, and the calls made to `task_severity` (task and overrides
argument of each, in order). -/
structure CacheResult where
  /-- The returned severity. -/
  ret : Option CStr
  /-- State after the call. -/
  ctx : CacheCtx
  /-- Calls of `task_severity` made by this call. -/
  fetched : List (task_t × Int)
deriving DecidableEq, Repr

/-- The function `cached_task_severity`.  `task_severity t o` stands for the
call `task_severity (t, o, 0)` of the source. -/
def cached_task_severity (task_severity : task_t → Int → Option CStr)
    (ctx : CacheCtx) (task : task_t) (overrides : Int) : CacheResult :=
  if ctx.auxdata then
    let cache := ctx.static_cache
    if overrides ≠ 0 then
      if cache.overrides_task = task then
        { ret := cache.overrides_severity, ctx := ctx, fetched := [] }
      else
        -- Replace the cached severity.
        let cache := { cache with overrides_task := task }
        let cache := { cache with overrides_severity := task_severity task 1 }
        { ret := cache.severity
          ctx := { ctx with static_cache := cache }
          fetched := [(task, 1)] }
    else
      if cache.task = task then
        { ret := cache.severity, ctx := ctx, fetched := [] }
      else
        -- Replace the cached severity.
        let cache := { cache with task := task }
        let cache := { cache with severity := task_severity task 0 }
        { ret := cache.severity
          ctx := { ctx with static_cache := cache }
          fetched := [(task, 0)] }
  else
    let severity := task_severity task overrides
    -- Setup the cached severity.
    let cache := ctx.static_cache
    let cache :=
      if overrides ≠ 0 then
        { cache with overrides_task := task, overrides_severity := severity }
      else
        { cache with task := task, severity := severity }
    { ret := severity
      ctx := { static_cache := cache, auxdata := true }
      fetched := [(task, overrides)] }

/-- The `int` passed as `overrides` for a flag value. -/
def flagInt (f : Bool) : Int := if f then 1 else 0

/-- The task held by the slot of flag `f`. -/
def slotTask (cache : sql_severity_t) (f : Bool) : task_t :=
  if f then cache.overrides_task else cache.task

/-- The severity held by the slot of flag `f`. -/
def slotSeverity (cache : sql_severity_t) (f : Bool) : Option CStr :=
  if f then cache.overrides_severity else cache.severity

/-- Each occupied slot holds what `task_severity` returns for its task. -/
def CacheConsistent (task_severity : task_t → Int → Option CStr)
    (cache : sql_severity_t) : Prop :=
  ∀ f : Bool, slotTask cache f ≠ 0 →
    slotSeverity cache f = task_severity (slotTask cache f) (flagInt f)

/-- A call hits when a statement cache exists and the slot of the flag holds
the requested task. -/
def IsHit (ctx : CacheCtx) (task : task_t) (f : Bool) : Prop :=
  ctx.auxdata = true ∧ slotTask ctx.static_cache f = task

/-- The severity cache as one statement holds it.  The variable `static_cache`
is shared by every call of `cached_task_severity`; the auxiliary data is kept
by SQLite for each call site apart (each place where an SQL function that
calls `cached_task_severity` occurs in the statement), so `sites` lists the
call sites for which `sqlite3_get_auxdata (context, 1)` yields the cache. -/
structure StmtCache where
  /-- The variable `static_cache`. -/
  static_cache : sql_severity_t
  /-- The call sites that hold auxiliary data. -/
  sites : List Nat
deriving DecidableEq, Repr

/-- What happens to the severity cache while a statement runs: a call of
`cached_task_severity` made at a call site, or SQLite discarding the
auxiliary data of a call site, which it may do at any time and does for an
argument that is not constant. -/
inductive CacheEvent where
  /-- Call of `cached_task_severity` at the call site. -/
  | call (site : Nat)
  /-- The auxiliary data of the call site is discarded. -/
  | discard (site : Nat)
deriving DecidableEq, Repr

/-- One event, for calls with the given task and overrides: the calls of
`task_severity` made and the state afterwards.  A call sees auxiliary data
exactly when its call site holds some, and `sqlite3_set_auxdata` gives the
call site its data when the cache is set up.  Discarding the data of a call
site runs the destructor `clear_cache` on the shared cache. -/
def apply_event (task_severity : task_t → Int → Option CStr) (task : task_t)
    (overrides : Int) (st : StmtCache) : CacheEvent → List (task_t × Int) × StmtCache
  | .call site =>
    ((cached_task_severity task_severity
        { static_cache := st.static_cache, auxdata := decide (site ∈ st.sites) }
        task overrides).fetched,
      { static_cache :=
          (cached_task_severity task_severity
            { static_cache := st.static_cache, auxdata := decide (site ∈ st.sites) }
            task overrides).ctx.static_cache
        sites := if site ∈ st.sites then st.sites else site :: st.sites })
  | .discard site =>
    ([], if site ∈ st.sites then
        { static_cache := clear_cache st.static_cache, sites := st.sites.erase site }
      else st)

/-- All calls of `task_severity` made in a run of events, the calls of which
are all for the same task and overrides. -/
def runFetched (task_severity : task_t → Int → Option CStr) (task : task_t)
    (overrides : Int) : List CacheEvent → StmtCache → List (task_t × Int)
  | [], _ => []
  | event :: rest, st =>
    (apply_event task_severity task overrides st event).1 ++
      runFetched task_severity task overrides rest
        (apply_event task_severity task overrides st event).2

/-- The state in which a statement starts on a fresh connection: the static
cache as initialised, no call site with auxiliary data. -/
def freshStmt : StmtCache := { static_cache := static_cache_init, sites := [] }

/-- End of a statement: SQLite discards the auxiliary data and runs the
destructor `clear_cache` on it, when there is one. -/
def end_statement (ctx : CacheCtx) : CacheCtx :=
  if ctx.auxdata then
    { static_cache := clear_cache ctx.static_cache, auxdata := false }
  else ctx

/-- A `task_severity` used in worked examples: task 3 has severity 2.0
without overrides, task 5 has severity 7.5 with overrides, nothing else has a
severity. -/
def exampleSeverity (task : task_t) (overrides : Int) : Option CStr :=
  if task = 3 ∧ overrides = 0 then some "2.0".toList
  else if task = 5 ∧ overrides = 1 then some "7.5".toList
  else none

/-- The state in which a statement starts on a fresh connection: the static
cache as initialised, no auxiliary data. -/
def freshCtx : CacheCtx := { static_cache := static_cache_init, auxdata := false }

/-! ## Results of SQL functions -/

/-- What a scalar SQL function leaves in its context: the value set by
`sqlite3_result_int`, `sqlite3_result_text` or `sqlite3_result_null`, or the
message of `sqlite3_result_error`. -/
inductive SqlResult where
  /-- From `sqlite3_result_error`. -/
  | error (msg : CStr)
  /-- From `sqlite3_result_int`. -/
  | int (n : Int)
  /-- From `sqlite3_result_text`. -/
  | text (s : CStr)
  /-- From `sqlite3_result_null`. -/
  | null
deriving DecidableEq, Repr

/-! ## Host lists (`sql_hosts_contains`) -/

/-- GLib's `g_ascii_isspace`: space, form feed, newline, carriage return and
horizontal tab (the vertical tab is not included). -/
def g_ascii_isspace (c : Char) : Bool :=
  c = ' ' || c = '\t' || c = '\n' || c = '\x0c' || c = '\r'

/-- GLib's `g_strchug`: skip the leading whitespace. -/
def g_strchug : CStr → CStr
  | [] => []
  | c :: cs => if g_ascii_isspace c then g_strchug cs else c :: cs

/-- The loop of GLib's `g_strchomp`: `while (len--)`, overwrite `string[len]`
with the terminator while it is whitespace, stop at the first byte that is
not. -/
def g_strchomp_loop (string : CStr) : Nat → CStr
  | 0 => string
  | len + 1 =>
    match string[len]? with
    | some c => if g_ascii_isspace c then g_strchomp_loop (string.take len) len else string
    | none => string

/-- GLib's `g_strchomp`: remove the trailing whitespace. -/
def g_strchomp (string : CStr) : CStr := g_strchomp_loop string string.length

/-- GLib's `g_strstrip`, the macro `g_strchomp (g_strchug (string))`. -/
def g_strstrip (string : CStr) : CStr := g_strchomp (g_strchug string)

/-- The pieces of a string between the occurrences of a one-character
delimiter: one more piece than there are delimiters. -/
def g_strsplit_pieces (delimiter : Char) : CStr → List CStr
  | [] => [[]]
  | c :: cs =>
    if c = delimiter then [] :: g_strsplit_pieces delimiter cs
    else
      match g_strsplit_pieces delimiter cs with
      | [] => [[c]]
      | piece :: pieces => (c :: piece) :: pieces

/-- GLib's `g_strsplit (string, delimiter, 0)` for a one-character delimiter:
the pieces between the delimiters, except that splitting the empty string
gives the empty vector. -/
def g_strsplit (string : CStr) (delimiter : Char) : List CStr :=
  if string = [] then [] else g_strsplit_pieces delimiter string

/-- The `while (*point)` loop of `sql_hosts_contains`: 1 at the first element
whose stripped text compares equal (`strcmp`) to the stripped host, 0 when the
vector is exhausted. -/
def sql_hosts_contains_loop (stripped_host : CStr) : List CStr → Int
  | [] => 0
  | point :: rest =>
    if g_strstrip point = stripped_host then 1
    else sql_hosts_contains_loop stripped_host rest

/-- The function `sql_hosts_contains`.  The arguments are the results of
`sqlite3_value_text` on `argv[0]` and `argv[1]`. -/
def sql_hosts_contains (hosts host : Option CStr) : SqlResult :=
  match hosts with
  | none => .error "Failed to get hosts argument".toList
  | some hosts =>
    match host with
    | none => .error "Failed to get host argument".toList
    | some host =>
      let stripped_host := g_strstrip host
      let split := g_strsplit hosts ','
      .int (sql_hosts_contains_loop stripped_host split)

/-- A string with its leading and trailing whitespace removed. -/
def trimmed (s : CStr) : CStr :=
  (s.dropWhile g_ascii_isspace).rdropWhile g_ascii_isspace

/-- The comma-separated tokens of a host list: the texts between the commas;
the empty list of hosts, serialized as the empty string, has no token. -/
def commaTokens (hosts : CStr) : List CStr :=
  if hosts = [] then [] else hosts.splitOn ','

/-! ## Unique names (`sql_uniquify`) -/

/-- Output of `printf` for `%u` with an `unsigned int` argument. -/
def printf_u (number : Nat) : CStr := Nat.toDigits 10 (number % 2 ^ 32)

/-- Output of `printf` for `%i` when handed an `unsigned int`: the same 32
bits read as a signed `int`. -/
def printf_i (number : Nat) : CStr :=
  if number % 2 ^ 32 < 2 ^ 31 then Nat.toDigits 10 (number % 2 ^ 32)
  else '-' :: Nat.toDigits 10 (2 ^ 32 - number % 2 ^ 32)

/-- The loop `while (sql_int (...))` of `sql_uniquify`, entered with the
current `number` and `candidate_name`.  `sql_int type name owner` stands for

  `sql_int ("SELECT COUNT (*) FROM %ss WHERE name = '%s'
             AND ((owner IS NULL) OR (owner = %llu));", type, quoted, owner)`

where `quoted` is `name` quoted for SQL.  `number` is an `unsigned int`, so
`++number` is taken modulo `2 ^ 32`.  The fuel bounds the number of probes;
`none` means the loop was still running when it ran out. -/
def sql_uniquify_loop (sql_int : CStr → CStr → Nat → Int)
    (type proposed_name suffix : CStr) (owner : Nat) :
    Nat → Nat → CStr → Option CStr
  | 0, _, _ => none
  | fuel + 1, number, candidate_name =>
    if sql_int type candidate_name owner ≠ 0 then
      let number := (number + 1) % 2 ^ 32
      let candidate_name :=
        proposed_name ++ suffix ++ [if type ≠ "user".toList then ' ' else '_']
          ++ printf_u number
      sql_uniquify_loop sql_int type proposed_name suffix owner fuel number candidate_name
    else some candidate_name

/-- The function `sql_uniquify`.  `type`, `proposed_name` and `suffix` are the
results of `sqlite3_value_text`; `owner` is the SQL value of `argv[2]`, which
`sqlite3_value_int64` reads as 0 when it is NULL and which `%llu` prints as an
unsigned 64-bit number. -/
def sql_uniquify (sql_int : CStr → CStr → Nat → Int) (fuel : Nat)
    (type proposed_name : Option CStr) (owner : Option Int) (suffix : Option CStr) :
    Option SqlResult :=
  match type with
  | none => some (.error "Failed to get type argument".toList)
  | some type =>
    match proposed_name with
    | none => some (.error "Failed to get proposed name argument".toList)
    | some proposed_name =>
      let owner : Int := owner.getD 0
      match suffix with
      | none => some (.error "Failed to get suffix argument".toList)
      | some suffix =>
        let number := (0 + 1) % 2 ^ 32
        let candidate_name :=
          proposed_name ++ suffix ++ [if type ≠ "user".toList then ' ' else '_']
            ++ printf_i number
        (sql_uniquify_loop sql_int type proposed_name suffix (owner % 2 ^ 64).toNat
          fuel number candidate_name).map SqlResult.text

/-- The separator of a resource type: `_` for users, a space for the rest. -/
def separator (type : CStr) : Char := if type = "user".toList then '_' else ' '

/-- The `n`-th name of the sequence probed by `sql_uniquify`. -/
def candidate (type proposed_name suffix : CStr) (n : Nat) : CStr :=
  proposed_name ++ suffix ++ [separator type] ++ Nat.toDigits 10 n

/-- Row of a resource table, as far as the query of `sql_uniquify` reads it. -/
structure NamedRow where
  /-- Column `name`. -/
  name : CStr
  /-- Column `owner`; `none` is SQL NULL. -/
  owner : Option Int
deriving DecidableEq, Repr

/-- The value of
`SELECT COUNT (*) FROM <table> WHERE name = '<name>'
   AND ((owner IS NULL) OR (owner = <owner>));`
over the rows of the table. -/
def count_named (rows : List NamedRow) (name : CStr) (owner : Nat) : Int :=
  ((rows.filter fun row =>
      decide (row.name = name) && (row.owner.isNone || decide (row.owner = some (owner : Int)))).length : Nat)

/-- The collaborator `sql_int` on the query of `sql_uniquify`, over a database
that maps a table name to its rows: the table is `<type>s`. -/
def db_sql_int (db : CStr → List NamedRow) (type name : CStr) (owner : Nat) : Int :=
  count_named (db (type ++ "s".toList)) name owner

/-- An existence check used in worked examples: exactly the names
`Task Clone 1` and `Task Clone 2` are taken. -/
def example_sql_int (_type name : CStr) (_owner : Nat) : Int :=
  if name = "Task Clone 1".toList ∨ name = "Task Clone 2".toList then 1 else 0

/-- An existence check used in worked examples: every name of at most 21
characters is taken, every longer name is free. -/
def crowded_sql_int (_type name : CStr) (_owner : Nat) : Int :=
  if name.length ≤ 21 then 1 else 0

/-- A database used in worked examples: the table `tasks` holds one row, named
`Task Clone 1` and owned by user 7. -/
def ownedDb (table : CStr) : List NamedRow :=
  if table = "tasks".toList then [{ name := "Task Clone 1".toList, owner := some 7 }] else []

/-- A database used in worked examples: the table `tasks` holds one row, named
`Task Clone 1`, whose owner is NULL. -/
def globalDb (table : CStr) : List NamedRow :=
  if table = "tasks".toList then [{ name := "Task Clone 1".toList, owner := none }] else []

/-- A database used in worked examples: the table `tasks` holds one row, named
`Task Clone 1`, whose owner is -1. -/
def negativeDb (table : CStr) : List NamedRow :=
  if table = "tasks".toList then [{ name := "Task Clone 1".toList, owner := some (-1) }] else []

/-! ## Severity overrides (`sql_severity_matches_ov`) -/

/-- An argument of an SQL function as its accessors read it: SQL NULL
(`sqlite3_value_type` is `SQLITE_NULL`), or a value with the text that
`sqlite3_value_text` yields and the number that `sqlite3_value_double` yields.
`D` stands for the C type `double`. -/
inductive SqlValue (D : Type) where
  /-- SQL NULL. -/
  | null
  /-- Value that is not NULL. -/
  | value (text : CStr) (double : D)
deriving DecidableEq, Repr

/-- Result of one call of `sql_severity_matches_ov`: what is left in the
context, and the calls made to `severity_matches_ov`. -/
structure MatchesOvResult (D : Type) where
  /-- What is left in the context. -/
  result : SqlResult
  /-- Calls of `severity_matches_ov` (severity and override severity). -/
  consulted : List (D × D)
deriving DecidableEq, Repr

/-- The function `sql_severity_matches_ov`. -/
def sql_severity_matches_ov {D : Type} (severity_matches_ov : D → D → Int)
    (argv0 argv1 : SqlValue D) : MatchesOvResult D :=
  match argv0 with
  | .null =>
    { result := .error "First parmeter of severity_matches_ov is NULL".toList, consulted := [] }
  | .value _ severity =>
    match argv1 with
    | .null => { result := .int 1, consulted := [] }
    | .value text ov_severity =>
      if text = "".toList then { result := .int 1, consulted := [] }
      else
        { result := .int (severity_matches_ov severity ov_severity)
          consulted := [(severity, ov_severity)] }

/-- A `severity_matches_ov` used in worked examples, over integer scores: the
two scores are equal. -/
def example_matches_ov (severity ov_severity : Int) : Int :=
  if severity = ov_severity then 1 else 0

/-! ## Times (`sql_parse_time`, `sql_next_time`) -/

/-- The C type `int`: a value reduced to 32 bits, two's complement. -/
def to_int (x : Int) : Int := (x + 2 ^ 31) % 2 ^ 32 - 2 ^ 31

/-- The C structure `struct tm` (with the `tm_gmtoff` extension). -/
structure tm where
  /-- Seconds. -/
  tm_sec : Int
  /-- Minutes. -/
  tm_min : Int
  /-- Hours. -/
  tm_hour : Int
  /-- Day of the month. -/
  tm_mday : Int
  /-- Month, from 0. -/
  tm_mon : Int
  /-- Year minus 1900. -/
  tm_year : Int
  /-- Day of the week. -/
  tm_wday : Int
  /-- Day of the year. -/
  tm_yday : Int
  /-- Daylight saving flag. -/
  tm_isdst : Int
  /-- Seconds east of UTC. -/
  tm_gmtoff : Int
deriving DecidableEq, Repr

/-- The C library functions that `sql_parse_time` calls.

* `strptime string format t` is the call `strptime (string, format, &tm)` with
  `tm` holding `t`: the returned pointer (`none` for `NULL`, otherwise the
  text left unprocessed) and the contents of `tm` after the call.
* `mktime t` is the value of `mktime (&tm)`.
* `sscanf string format` is `some offset` when `sscanf (string, format,
  &offset)` returns 1, having stored `offset`, and `none` when it returns
  anything else. -/
structure Libc where
  /-- The function `strptime`. -/
  strptime : CStr → CStr → tm → Option CStr × tm
  /-- The function `mktime`. -/
  mktime : tm → Int
  /-- The function `sscanf` with one assigned `%d`. -/
  sscanf : CStr → CStr → Option Int

/-- The formats of the five `strptime` calls of `sql_parse_time`, in the order
of the `&&` chain. -/
def time_grammars : List CStr :=
  [ "%F %T %z".toList,
    "$Date: %F %T %z".toList,
    "%a %b %d %T %Y %z".toList,
    "$Date: %a, %d %b %Y %T %z".toList,
    "$Date: %a %b %d %T %Y %z".toList ]

/-- The formats of the five `sscanf` calls of `sql_parse_time`, in the order
of the `&&` chain. -/
def offset_patterns : List CStr :=
  [ "%*u-%*u-%*u %*u:%*u:%*u %d%*[^]]".toList,
    "$Date: %*u-%*u-%*u %*u:%*u:%*u %d%*[^]]".toList,
    "%*s %*s %*s %*u:%*u:%*u %*u %d%*[^]]".toList,
    "$Date: %*s %*s %*s %*u %*u:%*u:%*u %d%*[^]]".toList,
    "$Date: %*s %*s %*s %*u:%*u:%*u %*u %d%*[^]]".toList ]

/-- The chain `(strptime (string, f1, &tm) == NULL) && (strptime (string, f2,
&tm) == NULL) && ...` over the given formats: the calls are made in order on
the same `tm` until one returns a pointer that is not `NULL`.  Yields the
contents of `tm` after the call that succeeded (`none` when every call
returned `NULL`) and the formats tried. -/
def strptime_chain (strptime : CStr → CStr → tm → Option CStr × tm) (string : CStr) :
    List CStr → tm → Option tm × List CStr
  | [], _ => (none, [])
  | format :: rest, t =>
    match strptime string format t with
    | (some _, t') => (some t', [format])
    | (none, t') =>
      ((strptime_chain strptime string rest t').1,
        format :: (strptime_chain strptime string rest t').2)

/-- The chain `(sscanf (string, p1, &offset) != 1) && (sscanf (string, p2,
&offset) != 1) && ...` over the given formats: the offset stored by the first
call that returns 1 (`none` when no call does) and the formats tried. -/
def sscanf_chain (sscanf : CStr → CStr → Option Int) (string : CStr) :
    List CStr → Option Int × List CStr
  | [] => (none, [])
  | format :: rest =>
    match sscanf string format with
    | some offset => (some offset, [format])
    | none =>
      ((sscanf_chain sscanf string rest).1, format :: (sscanf_chain sscanf string rest).2)

/-- The block "Use the offset to convert to UTC" of `sql_parse_time`, on the
`int` variables `epoch_time` and `offset`. -/
def offset_to_utc (epoch_time offset : Int) : Int :=
  if offset < 0 then
    let epoch_time := to_int (epoch_time + (to_int (-offset)).tdiv 100 * 60 * 60)
    let epoch_time := to_int (epoch_time + (to_int (-offset)).tmod 100 * 60)
    epoch_time
  else if offset > 0 then
    let epoch_time := to_int (epoch_time - offset.tdiv 100 * 60 * 60)
    let epoch_time := to_int (epoch_time - offset.tmod 100 * 60)
    epoch_time
  else epoch_time

/-- Result of one call of `sql_parse_time`. -/
structure ParseTimeResult where
  /-- What is left in the context. -/
  result : SqlResult
  /-- Formats handed to `strptime`, in order. -/
  attempted : List CStr
  /-- Formats handed to `sscanf`, in order. -/
  scanned : List CStr
  /-- Message of `g_warning`, when one is logged. -/
  warning : Option CStr
deriving DecidableEq, Repr

/-- The part of `sql_parse_time` that follows a successful `strptime`: `mktime`,
the extraction of the offset, and the conversion to UTC.  `t` is the
contents of `tm` and `attempted` the formats tried so far. -/
def sql_parse_time_finish (libc : Libc) (string : CStr) (t : tm) (attempted : List CStr) :
    ParseTimeResult :=
  let epoch_time := to_int (libc.mktime t)
  if epoch_time = -1 then
    { result := .int 0, attempted := attempted, scanned := []
      warning := some ("sql_parse_time: Failed to make time: ".toList ++ string) }
  else
    match sscanf_chain libc.sscanf string offset_patterns with
    | (none, scanned) =>
      { result := .int 0, attempted := attempted, scanned := scanned
        warning := some ("sql_parse_time: Failed to parse timezone offset: ".toList ++ string) }
    | (some offset, scanned) =>
      { result := .int (offset_to_utc epoch_time offset), attempted := attempted
        scanned := scanned, warning := none }

/-- The function `sql_parse_time`, for an argument whose text is `string`
(not `NULL`).  `tm0` is what the local variable `tm` holds on entry. -/
def sql_parse_time (libc : Libc) (tm0 : tm) (string : CStr) : ParseTimeResult :=
  if string = "".toList ∨ string = "$Date: $".toList ∨ string = "$Date$".toList
      ∨ string = "$Date:$".toList ∨ string = "$Date".toList ∨ string = "$$".toList then
    { result := .int 0, attempted := [], scanned := [], warning := none }
  else
    -- Parse the time.
    match strptime_chain libc.strptime string time_grammars tm0 with
    | (none, attempted) =>
      { result := .int 0, attempted := attempted, scanned := []
        warning := some ("sql_parse_time: Failed to parse time: ".toList ++ string) }
    | (some t, attempted) => sql_parse_time_finish libc string t attempted

/-- The placeholder texts of an unset date tag. -/
def time_placeholders : List CStr :=
  [ "".toList, "$Date: $".toList, "$Date$".toList, "$Date:$".toList, "$Date".toList,
    "$$".toList ]

/-- The contents of `tm` after `strptime` has been called on it with each of
the given formats in turn. -/
def thread_tm (strptime : CStr → CStr → tm → Option CStr × tm) (string : CStr) :
    List CStr → tm → tm
  | [], t => t
  | format :: rest, t => thread_tm strptime string rest (strptime string format t).2

/-- The seconds of an offset written `±HHMM` and read as a decimal number `o`:
`H * 3600 + M * 60` with `H = |o| / 100` and `M = |o| mod 100`. -/
def offset_seconds (o : Int) : Int :=
  ((o.natAbs / 100 : Nat) : Int) * 3600 + ((o.natAbs % 100 : Nat) : Int) * 60

/-- The contents of `tm` in worked examples before anything is stored. -/
def blank_tm : tm :=
  { tm_sec := 0, tm_min := 0, tm_hour := 0, tm_mday := 0, tm_mon := 0, tm_year := 0,
    tm_wday := 0, tm_yday := 0, tm_isdst := 0, tm_gmtoff := 0 }

/-- The fields of 9 August 2011, 08:20:34, two hours east of UTC. -/
def august_tm : tm :=
  { tm_sec := 34, tm_min := 20, tm_hour := 8, tm_mday := 9, tm_mon := 7, tm_year := 111,
    tm_wday := 2, tm_yday := 220, tm_isdst := 0, tm_gmtoff := 7200 }

/-- The text of the first sample in the comments of `sql_parse_time`. -/
def sample_time : CStr := "2011-08-09 08:20:34 +0200 (Tue, 09 Aug 2011)".toList

/-- The sample with the blank between date and time left out. -/
def sample_time_joined : CStr := "2011-08-0908:20:34 +0200".toList

/-- The C library on the texts of the worked examples, with the clock in UTC.

* `strptime` with the format `%F %T %z` processes `2011-08-09 08:20:34 +0200`
  at the start of `sample_time` and returns the pointer to the text after it;
  it also accepts `sample_time_joined`, as white space in a format matches
  no white space in the text too.  Every other call of the examples returns
  `NULL`.
* `mktime` of these fields is 1312878034.
* `sscanf` with the first offset pattern stores 200 from `sample_time`; on
  `sample_time_joined` the third `%*u` takes `0908` and the fourth meets `:`,
  so no pattern stores an offset. -/
def sample_libc : Libc where
  strptime := fun string format t =>
    if format = "%F %T %z".toList ∧ string = sample_time then
      (some " (Tue, 09 Aug 2011)".toList, august_tm)
    else if format = "%F %T %z".toList ∧ string = sample_time_joined then
      (some [], august_tm)
    else (none, t)
  mktime := fun t => if t = august_tm then 1312878034 else -1
  sscanf := fun string format =>
    if format = "%*u-%*u-%*u %*u:%*u:%*u %d%*[^]]".toList ∧ string = sample_time then some 200
    else none

/-- Modelled from the spec: the function `next_time`, which `sql_next_time`
calls and whose body is not among the sources (`manage_utils.h` declares it).
The spec: if `first_time` is 0 the result is 0; otherwise, starting from
`first_time`, advance by the period (whole months when `period_months > 0`,
which takes precedence, otherwise `period` seconds) until the time is
strictly greater than `now`, in closed form; if `period` and `period_months`
are both 0 the result is `first_time` if that is still in the future relative
to `now`, else 0.  `now` is the current time, which the function reads from
the clock; `next_month_time first period_months now` is the calendar
arithmetic for whole months, which is not modelled. -/
def next_time (next_month_time : Int → Int → Int → Int) (now : Int)
    (first period period_months : Int) : Int :=
  if first = 0 then 0
  else if period_months > 0 then next_month_time first period_months now
  else if period > 0 then
    if first > now then first
    else first + ((now - first) / period + 1) * period
  else if first > now then first
  else 0

/-- The function `sql_next_time`.  `first`, `period` and `period_months` are
the results of `sqlite3_value_int` on the three arguments; the result of
`next_time` is handed to `sqlite3_result_int`, which takes an `int`. -/
def sql_next_time (next_time : Int → Int → Int → Int) (first period period_months : Int) :
    SqlResult :=
  .int (to_int (next_time first period period_months))

/-! ## Severity constants (`manage_utils.h`) -/

/-- Log message severity constant. -/
def SEVERITY_LOG : ℚ := 0.0

/-- False positive severity constant. -/
def SEVERITY_FP : ℚ := -1.0

/-- Debug message severity constant. -/
def SEVERITY_DEBUG : ℚ := -2.0

/-- Error message severity constant. -/
def SEVERITY_ERROR : ℚ := -3.0

/-- Constant for missing or invalid severity. -/
def SEVERITY_MISSING : ℚ := -99.0

/-- Constant for undefined severity (for ranges). -/
def SEVERITY_UNDEFINED : ℚ := -98.0

/-- Maximum possible severity. -/
def SEVERITY_MAX : ℚ := 10.0

/-- The reserved severity constants. -/
def severity_sentinels : List ℚ :=
  [SEVERITY_LOG, SEVERITY_FP, SEVERITY_DEBUG, SEVERITY_ERROR, SEVERITY_MISSING,
    SEVERITY_UNDEFINED]

/-! ## Number of hosts (`sql_max_hosts`) -/

/-- Modelled from the spec: the function `manage_count_hosts`, which
`sql_max_hosts` calls and whose body is not among the sources.  The spec: the
count of distinct usable addresses the host specification expands to, minus
the addresses also present in the excluded hosts; an empty `hosts` yields 0,
never an error.  `expand hosts exclude_hosts` is the expansion of a
specification that is not empty, an external collaborator. -/
def manage_count_hosts (expand : CStr → Option CStr → Int) (hosts : CStr)
    (exclude_hosts : Option CStr) : Int :=
  if hosts = [] then 0 else expand hosts exclude_hosts

/-- The function `sql_max_hosts`.  `hosts` and `exclude_hosts` are the results
of `sqlite3_value_text` on the two arguments; the count, an `int`, is printed
with `%i`. -/
def sql_max_hosts (manage_count_hosts : CStr → Option CStr → Int)
    (hosts exclude_hosts : Option CStr) : SqlResult :=
  match hosts with
  | none =>
    -- Seems this happens when the query result is empty.
    .text "0".toList
  | some hosts =>
    .text (printf_i (manage_count_hosts hosts exclude_hosts % 2 ^ 32).toNat)

/-- The decimal rendering of an integer: a minus sign for a negative number,
then the digits of its absolute value. -/
def decimal (v : Int) : CStr :=
  if v < 0 then '-' :: Nat.toDigits 10 v.natAbs else Nat.toDigits 10 v.natAbs

/-- An expansion of host specifications used in worked examples: one address
for each comma-separated token, exclusions ignored. -/
def example_expand (hosts : CStr) (_exclude_hosts : Option CStr) : Int :=
  (commaTokens hosts).length

/-! ## Column rename (`sql_rename_column`) -/

/-- The `for` loop of `sql_rename_column` over the columns of the row, entered
with the strings `one` and `two` and the flag `first`: the strings after the
last column. -/
def sql_rename_column_loop (old_name new_name : CStr) :
    List CStr → CStr → CStr → Bool → CStr × CStr
  | [], one, two, _ => (one, two)
  | name :: rest, one, two, first =>
    let one := one ++ (if first then "".toList else ", ".toList)
      ++ (if name = old_name then new_name else name)
    let two := if first then two else two ++ ", ".toList
    let two := two ++ name
    sql_rename_column_loop old_name new_name rest one two false

/-- The function `sql_rename_column`.  `row` is what the iterator over
`SELECT * FROM <old_table> LIMIT 1;` yields: `none` when `next` finds no row,
otherwise the names of the columns of the row in order
(`iterator_column_name` for 0 up to `iterator_column_count`).  The result is
the list of the statements handed to `sql`. -/
def sql_rename_column (row : Option (List CStr))
    (old_table new_table old_name new_name : CStr) : List CStr :=
  match row with
  | some names =>
    -- Build the INSERT query from the column names in the row.
    let one := "".toList
    let one := one ++ "INSERT INTO ".toList ++ new_table ++ " (".toList
    let two := ") SELECT ".toList
    let built := sql_rename_column_loop old_name new_name names one two true
    let one := built.1 ++ built.2 ++ " FROM ".toList ++ old_table ++ ";".toList
    -- Run the INSERT query.
    [one]
  | none => []

/-- The destination column names: the old name relabelled, the others as they
are. -/
def renamed_columns (old_name new_name : CStr) (names : List CStr) : List CStr :=
  names.map fun name => if name = old_name then new_name else name

/-! ## Common CVE (`sql_common_cve`) -/

/-- The inner loop `while (*point_2)` of `sql_common_cve`, for the element
`point_1`: whether a match was found, and where `point_2` stands afterwards. -/
def sql_common_cve_inner (point_1 : CStr) : List CStr → Bool × List CStr
  | [] => (false, [])
  | point_2 :: rest =>
    if g_strstrip point_1 = g_strstrip point_2 then (true, point_2 :: rest)
    else sql_common_cve_inner point_1 rest

/-- The outer loop `while (*point_1)` of `sql_common_cve`.  `point_2` is carried
from one round to the next as the inner loop left it. -/
def sql_common_cve_outer : List CStr → List CStr → Int
  | [], _ => 0
  | point_1 :: rest_1, point_2 =>
    if (sql_common_cve_inner point_1 point_2).1 then 1
    else sql_common_cve_outer rest_1 (sql_common_cve_inner point_1 point_2).2

/-- The function `sql_common_cve`.  The arguments are the results of
`sqlite3_value_text` on `argv[0]` and `argv[1]`. -/
def sql_common_cve (cve1 cve2 : Option CStr) : SqlResult :=
  match cve1 with
  | none => .error "Failed to get first CVE argument".toList
  | some cve1 =>
    match cve2 with
    | none => .error "Failed to get second CVE argument".toList
    | some cve2 =>
      let split_1 := g_strsplit cve1 ','
      let split_2 := g_strsplit cve2 ','
      .int (sql_common_cve_outer split_1 split_2)

/-! ## Tags (`sql_tag`) -/

/-- The loop `while (*point)` of `sql_tag`: the text after `tag=` in the first
element that is longer than `tag`, starts with `tag` (`strncmp`) and has `=`
right after it; the empty text when there is none. -/
def sql_tag_loop (tag : CStr) : List CStr → CStr
  | [] => "".toList
  | point :: rest =>
    if point.length > tag.length ∧ point.take tag.length = tag
        ∧ point[tag.length]? = some '=' then
      point.drop (tag.length + 1)
    else sql_tag_loop tag rest

/-- The function `sql_tag`.  The arguments are the results of
`sqlite3_value_text` on `argv[0]` and `argv[1]`. -/
def sql_tag (tags tag : Option CStr) : SqlResult :=
  match tags with
  | none => .error "Failed to get tags argument".toList
  | some tags =>
    match tag with
    | none => .error "Failed to get tag argument".toList
    | some tag =>
      let split := g_strsplit tags '|'
      .text (sql_tag_loop tag split)

/-! ## Resources (`sql_resource_exists`, `sql_resource_name`) -/

/-- The function `sql_resource_exists`.  `type` is the result of
`sqlite3_value_text`, `resource` that of `sqlite3_value_int64` and `location`
that of `sqlite3_value_int`; `valid_db_resource_type` and `resource_exists`
are the functions of those names. -/
def sql_resource_exists (valid_db_resource_type : CStr → Int)
    (resource_exists : CStr → Int → Int → Int)
    (type : Option CStr) (resource location : Int) : SqlResult :=
  match type with
  | none => .int 0
  | some type =>
    if valid_db_resource_type type = 0 then
      .error "Invalid resource type argument".toList
    else if resource = 0 then .int 0
    else
      let exists_ := resource_exists type resource location
      if exists_ = -1 then
        .error ("Invalid resource type argument: ".toList ++ type)
      else .int exists_

/-- The function `sql_resource_name`.  `type` and `id` are the results of
`sqlite3_value_text`, `location` that of `sqlite3_value_int`;
`resource_name type id location` is the return value of the function of that
name together with the name it stores (`none` for `NULL`). -/
def sql_resource_name (resource_name : CStr → CStr → Int → Int × Option CStr)
    (type id : Option CStr) (location : Int) : SqlResult :=
  match type with
  | none => .null
  | some type =>
    match id with
    | none => .null
    | some id =>
      if (resource_name type id location).1 ≠ 0 then
        .error ("Invalid resource type argument: ".toList ++ type)
      else
        match (resource_name type id location).2 with
        | some name => .text name
        | none => .text "".toList

/-- A `resource_name` used in worked examples: it knows the type `task` only,
and names every task `scan`. -/
def example_resource_name (type _id : CStr) (_location : Int) : Int × Option CStr :=
  if type = "task".toList then (0, some "scan".toList) else (1, none)

/-! ## Host cleaning (`sql_clean_hosts`) -/

/-- The function `sql_clean_hosts`.  `hosts` is the result of
`sqlite3_value_text`; `clean_hosts hosts` stands for the call
`clean_hosts (hosts, NULL)`, whose result is handed to
`sqlite3_result_text`, for which a `NULL` text gives SQL NULL. -/
def sql_clean_hosts (clean_hosts : CStr → Option CStr) (hosts : Option CStr) : SqlResult :=
  match hosts with
  | none => .error "Failed to get hosts argument".toList
  | some hosts =>
    match clean_hosts hosts with
    | some clean => .text clean
    | none => .null

/-! ## Tasks and reports (`sql_task_trend`, `sql_threat_level`,
`sql_report_progress`, `sql_report_severity`, `sql_report_severity_count`,
`sql_task_severity`) -/

/-- The result of an SQL function that may also call `sqlite3_result_double`.
`D` stands for the C type `double`. -/
inductive SqlOut (D : Type) where
  /-- Result other than a double. -/
  | plain (r : SqlResult)
  /-- From `sqlite3_result_double`. -/
  | double (d : D)
deriving DecidableEq, Repr

/-- The counts that `report_counts_id` stores. -/
structure ReportCounts where
  /-- Number of debug messages. -/
  debugs : Int
  /-- Number of false positives. -/
  false_positives : Int
  /-- Number of log messages. -/
  logs : Int
  /-- Number of low results. -/
  lows : Int
  /-- Number of medium results. -/
  mediums : Int
  /-- Number of high results. -/
  highs : Int
deriving DecidableEq, Repr

/-- The functions of the manager and of the C library that the task and report
functions call.  A returned `char *` is an `Option`, `none` for `NULL`.

* `sscanf_lf s` is `some d` when `sscanf (s, "%lf", &d)` returns 1.
* `task_last_report task` is the report that `task_last_report` stores.
* `report_task report` is the return value of `report_task` and the task it
  stores.
* `report_progress report task` is `report_progress (report, task, NULL)`.
* `report_counts_id report overrides` are the counts stored by
  `report_counts_id (report, ..., NULL, overrides, NULL, 0)`.
* `severity_missing` is the double `SEVERITY_MISSING`. -/
structure Manage (D : Type) where
  /-- The function `task_trend`. -/
  task_trend : Int → Int → Option CStr
  /-- The function `task_severity`, with 0 for its last argument. -/
  task_severity : task_t → Int → Option CStr
  /-- The function `sscanf` with the format `%lf`. -/
  sscanf_lf : CStr → Option D
  /-- The function `g_strtod`. -/
  g_strtod : CStr → D
  /-- The function `severity_to_level`. -/
  severity_to_level : D → Int → Option CStr
  /-- The function `task_last_report`. -/
  task_last_report : Int → Int
  /-- The function `report_task`. -/
  report_task : Int → Int × Int
  /-- The function `report_progress`. -/
  report_progress : Int → Int → Int
  /-- The function `report_severity`. -/
  report_severity : Int → Int → D
  /-- The function `report_counts_id`. -/
  report_counts_id : Int → Int → ReportCounts
  /-- The constant `SEVERITY_MISSING` as a double. -/
  severity_missing : D

/-- A result together with the names of the collaborators called to produce
it, in the order of the calls. -/
structure Traced (α : Type) where
  /-- The result. -/
  result : α
  /-- Names of the functions called. -/
  calls : List CStr
deriving DecidableEq, Repr

/-- The value handed to `sqlite3_result_text`: a `NULL` text gives SQL NULL. -/
def result_text (text : Option CStr) : SqlResult :=
  match text with
  | some s => .text s
  | none => .null

/-- The function `sql_task_trend`.  `task` is the result of
`sqlite3_value_int64` on `argv[0]`, `overrides` that of `sqlite3_value_int`
on `argv[1]`. -/
def sql_task_trend {D : Type} (m : Manage D) (task : task_t) (overrides : Int) :
    Traced SqlResult :=
  if task = 0 then { result := .text "".toList, calls := [] }
  else
    { result := result_text (m.task_trend task overrides)
      calls := ["task_trend".toList] }

/-- The function `sql_threat_level`, with the state of the severity cache
before the call; yields the result, the calls made and the state of the
cache afterwards. -/
def sql_threat_level {D : Type} (m : Manage D) (ctx : CacheCtx) (task : task_t)
    (overrides : Int) : Traced SqlResult × CacheCtx :=
  if task = 0 then ({ result := .text "".toList, calls := [] }, ctx)
  else
    let cached := cached_task_severity m.task_severity ctx task overrides
    let fetches := cached.fetched.map fun _ => "task_severity".toList
    let threat : Option CStr × List CStr :=
      match cached.ret with
      | none => (none, [])
      | some severity =>
        match m.sscanf_lf severity with
        | none => (none, ["sscanf".toList])
        | some severity_dbl =>
          (m.severity_to_level severity_dbl 0, ["sscanf".toList, "severity_to_level".toList])
    match threat.1 with
    | some level =>
      ({ result := .text level, calls := fetches ++ threat.2 }, cached.ctx)
    | none =>
      let last_report := m.task_last_report task
      if last_report = 0 then
        ({ result := .text "".toList
           calls := fetches ++ threat.2 ++ ["task_last_report".toList] }, cached.ctx)
      else
        ({ result := .text "None".toList
           calls := fetches ++ threat.2 ++ ["task_last_report".toList] }, cached.ctx)

/-- The function `sql_report_progress`.  `report` is the result of
`sqlite3_value_int64` on `argv[0]`. -/
def sql_report_progress {D : Type} (m : Manage D) (report : Int) : Traced SqlResult :=
  if report = 0 then { result := .int (-1), calls := [] }
  else if (m.report_task report).1 ≠ 0 then
    { result := .int (-1), calls := ["report_task".toList] }
  else
    { result := .int (m.report_progress report (m.report_task report).2)
      calls := ["report_task".toList, "report_progress".toList] }

/-- The function `sql_report_severity`. -/
def sql_report_severity {D : Type} (m : Manage D) (report : Int) (overrides : Int) :
    Traced (SqlOut D) :=
  if report = 0 then { result := .plain (.text "".toList), calls := [] }
  else
    { result := .double (m.report_severity report overrides)
      calls := ["report_severity".toList] }

/-- C's `strcasecmp (a, b) == 0` on ASCII text. -/
def strcasecmp_eq (a b : CStr) : Bool := a.map Char.toLower = b.map Char.toLower

/-- The function `report_severity_count`. -/
def report_severity_count {D : Type} (m : Manage D) (report : Int) (overrides : Int)
    (level : CStr) : Int :=
  let counts := m.report_counts_id report overrides
  if strcasecmp_eq level "Debug".toList then counts.debugs
  else if strcasecmp_eq level "False Positive".toList then counts.false_positives
  else if strcasecmp_eq level "Log".toList then counts.logs
  else if strcasecmp_eq level "Low".toList then counts.lows
  else if strcasecmp_eq level "Medium".toList then counts.mediums
  else if strcasecmp_eq level "High".toList then counts.highs
  else 0

/-- The function `sql_report_severity_count`.  `level` is the result of
`sqlite3_value_text` on `argv[2]`. -/
def sql_report_severity_count {D : Type} (m : Manage D) (report : Int) (overrides : Int)
    (level : Option CStr) : Traced SqlResult :=
  if report = 0 then { result := .text "".toList, calls := [] }
  else
    match level with
    | none => { result := .text "".toList, calls := [] }
    | some level =>
      { result := .int (report_severity_count m report overrides level)
        calls := ["report_counts_id".toList] }

/-- The function `sql_task_severity`, with the state of the severity cache
before the call; yields the result, the calls made and the state of the
cache afterwards. -/
def sql_task_severity {D : Type} (m : Manage D) (ctx : CacheCtx) (task : task_t)
    (overrides : Int) : Traced (SqlOut D) × CacheCtx :=
  if task = 0 then ({ result := .plain (.text "".toList), calls := [] }, ctx)
  else
    let cached := cached_task_severity m.task_severity ctx task overrides
    let fetches := cached.fetched.map fun _ => "task_severity".toList
    match cached.ret with
    | some severity =>
      ({ result := .double (m.g_strtod severity)
         calls := fetches ++ ["g_strtod".toList] }, cached.ctx)
    | none =>
      let last_report := m.task_last_report task
      if last_report = 0 then
        ({ result := .double m.severity_missing
           calls := fetches ++ ["task_last_report".toList] }, cached.ctx)
      else
        ({ result := .double m.severity_missing
           calls := fetches ++ ["task_last_report".toList] }, cached.ctx)

/-- The manager in worked examples, with integer scores: every task trends
`up`, severities are those of `exampleSeverity`, and each collaborator
returns a fixed value. -/
def sample_manage : Manage Int where
  task_trend := fun _ _ => some "up".toList
  task_severity := exampleSeverity
  sscanf_lf := fun _ => some 7
  g_strtod := fun _ => 7
  severity_to_level := fun _ _ => some "High".toList
  task_last_report := fun _ => 1
  report_task := fun report => (0, report)
  report_progress := fun _ _ => 50
  report_severity := fun _ _ => 7
  report_counts_id := fun _ _ =>
    { debugs := 0, false_positives := 0, logs := 1, lows := 2, mediums := 3, highs := 4 }
  severity_missing := -99

/-- Whether the result is an SQL error. -/
def is_error (r : SqlResult) : Bool :=
  match r with
  | .error _ => true
  | _ => false

/-! # Theorems -/

/-! ## Severity cache -/

/-- After any call the statement cache exists and the slot of the flag holds
the requested task: the next call for the same task and flag is a hit. -/
theorem cached_task_severity_then_hit (task_severity : task_t → Int → Option CStr)
    (ctx : CacheCtx) (task : task_t) (overrides : Int) :
    IsHit (cached_task_severity task_severity ctx task overrides).ctx task
      (decide (overrides ≠ 0)) := by
  unfold IsHit cached_task_severity slotTask
  by_cases ha : ctx.auxdata = true <;> by_cases ho : overrides = 0 <;>
    simp [ha, ho] <;> split <;> simp_all

/-- A hit calls `task_severity` not at all and leaves the state as it was. -/
theorem cached_task_severity_hit (task_severity : task_t → Int → Option CStr)
    (ctx : CacheCtx) (task : task_t) (overrides : Int)
    (h : IsHit ctx task (decide (overrides ≠ 0))) :
    (cached_task_severity task_severity ctx task overrides).fetched = [] ∧
      (cached_task_severity task_severity ctx task overrides).ctx = ctx := by
  obtain ⟨ha, ht⟩ := h
  unfold slotTask at ht
  unfold cached_task_severity
  by_cases ho : overrides = 0 <;> simp_all

/-- Any call makes at most one call of `task_severity`. -/
theorem cached_task_severity_fetched_le_one (task_severity : task_t → Int → Option CStr)
    (ctx : CacheCtx) (task : task_t) (overrides : Int) :
    (cached_task_severity task_severity ctx task overrides).fetched.length ≤ 1 := by
  unfold cached_task_severity
  by_cases ha : ctx.auxdata = true <;> by_cases ho : overrides = 0 <;>
    simp [ha, ho] <;> split <;> simp

/-- A call at a call site that holds auxiliary data, with the slot of the flag
holding the task, calls `task_severity` not at all and changes nothing. -/
theorem apply_event_call_hit (task_severity : task_t → Int → Option CStr)
    (task : task_t) (overrides : Int) (st : StmtCache) (site : Nat)
    (hsite : site ∈ st.sites)
    (hslot : slotTask st.static_cache (decide (overrides ≠ 0)) = task) :
    apply_event task_severity task overrides st (.call site) = ([], st) := by
  have hh := cached_task_severity_hit task_severity
    { static_cache := st.static_cache, auxdata := decide (site ∈ st.sites) } task overrides
    ⟨by simp [hsite], hslot⟩
  simp only [apply_event, hh.1, hh.2, if_pos hsite]

/-- A run of calls for the same task and flag, all at call sites that hold
auxiliary data, with the slot of the flag holding the task, calls
`task_severity` not at all. -/
theorem runFetched_of_hits (task_severity : task_t → Int → Option CStr)
    (task : task_t) (overrides : Int) (st : StmtCache)
    (hslot : slotTask st.static_cache (decide (overrides ≠ 0)) = task)
    (events : List CacheEvent)
    (hevents : ∀ event ∈ events, ∃ site, event = .call site ∧ site ∈ st.sites) :
    runFetched task_severity task overrides events st = [] := by
  induction events with
  | nil => rfl
  | cons event rest ih =>
    obtain ⟨site, rfl, hsite⟩ := hevents event (List.mem_cons_self _ _)
    rw [runFetched, apply_event_call_hit task_severity task overrides st site hsite hslot]
    exact ih (fun e he => hevents e (List.mem_cons_of_mem _ he))

/-- C1: evaluation at the input on which the claim fails.  On a fresh
connection the call for task 3 without overrides sets the cache up; the state
it leaves is consistent.  The next call, for task 5 with overrides, misses in
the overrides slot, stores the fetched severity 7.5 there, and returns the
severity of the other slot, 2.0, which is not what `task_severity` yields for
task 5 with overrides. -/
theorem cached_task_severity_miss_overrides_returns_plain_slot :
    CacheConsistent exampleSeverity
        (cached_task_severity exampleSeverity freshCtx 3 0).ctx.static_cache ∧
      (cached_task_severity exampleSeverity freshCtx 3 0).ctx.auxdata = true ∧
      (cached_task_severity exampleSeverity
        (cached_task_severity exampleSeverity freshCtx 3 0).ctx 5 1).ret
        = some "2.0".toList ∧
      exampleSeverity 5 1 = some "7.5".toList ∧
      (cached_task_severity exampleSeverity
        (cached_task_severity exampleSeverity freshCtx 3 0).ctx 5 1).ctx.static_cache.overrides_severity
        = some "7.5".toList := by
  refine ⟨?_, by decide, by decide, by decide, by decide⟩
  intro f
  cases f <;> decide

/-- C2: evaluation at the input on which the claim fails.  In the state left
by a call for task 3 without overrides, two successive calls for task 5 with
overrides return different values: the first (a miss) returns 2.0, the second
(a hit) returns 7.5. -/
theorem cached_task_severity_repeat_differs :
    (cached_task_severity exampleSeverity
        (cached_task_severity exampleSeverity freshCtx 3 0).ctx 5 1).ret
        = some "2.0".toList ∧
      (cached_task_severity exampleSeverity
        (cached_task_severity exampleSeverity
          (cached_task_severity exampleSeverity freshCtx 3 0).ctx 5 1).ctx 5 1).ret
        = some "7.5".toList := by
  constructor <;> decide

/-- C3, as stated, fails in its second half: within one statement, two
consecutive calls for task 5 with overrides fetch twice when they are made at
two call sites, as the auxiliary data of the first call site is not that of
the second; and two calls at one call site fetch twice when SQLite discards
the auxiliary data between them. -/
theorem cached_task_severity_run_fetches_twice :
    runFetched exampleSeverity 5 1 [.call 0, .call 1] freshStmt = [(5, 1), (5, 1)] ∧
      runFetched exampleSeverity 5 1 [.call 0, .discard 0, .call 0] freshStmt
        = [(5, 1), (5, 1)] := by
  constructor <;> decide

/-- C3, amended: when a statement cache exists and the slot of the requested
flag holds the requested task, `cached_task_severity` makes no call of
`task_severity` and leaves the cache as it was; consequently a run of
consecutive calls for the same task and flag makes at most one call of
`task_severity` altogether, provided that every call after the first is made
at the call site of the first call or at a call site that held auxiliary data
before the run, and that no auxiliary data is discarded during the run.  A
call at a call site without auxiliary data always fetches. -/
theorem cached_task_severity_hit_no_fetch (task_severity : task_t → Int → Option CStr)
    (ctx : CacheCtx) (task : task_t) (overrides : Int) :
    (IsHit ctx task (decide (overrides ≠ 0)) →
        (cached_task_severity task_severity ctx task overrides).fetched = [] ∧
        (cached_task_severity task_severity ctx task overrides).ctx = ctx) ∧
      (∀ (st : StmtCache) (site : Nat) (rest : List CacheEvent),
        (∀ event ∈ rest, ∃ s, event = .call s ∧ (s = site ∨ s ∈ st.sites)) →
        (runFetched task_severity task overrides (.call site :: rest) st).length ≤ 1) ∧
      (∀ (st : StmtCache) (site : Nat), site ∉ st.sites →
        (apply_event task_severity task overrides st (.call site)).1 = [(task, overrides)]) := by
  refine ⟨cached_task_severity_hit task_severity ctx task overrides, ?_, ?_⟩
  · intro st site rest hrest
    have hhit := cached_task_severity_then_hit task_severity
      { static_cache := st.static_cache, auxdata := decide (site ∈ st.sites) } task overrides
    have hrun : runFetched task_severity task overrides rest
        (apply_event task_severity task overrides st (.call site)).2 = [] := by
      apply runFetched_of_hits
      · exact hhit.2
      · intro event hevent
        obtain ⟨s, rfl, hs⟩ := hrest event hevent
        refine ⟨s, rfl, ?_⟩
        simp only [apply_event]
        by_cases hsite : site ∈ st.sites
        · rw [if_pos hsite]
          rcases hs with rfl | hs
          · exact hsite
          · exact hs
        · rw [if_neg hsite]
          rcases hs with rfl | hs
          · exact List.mem_cons_self _ _
          · exact List.mem_cons_of_mem _ hs
    rw [runFetched, hrun, List.append_nil]
    exact cached_task_severity_fetched_le_one task_severity _ task overrides
  · intro st site hsite
    simp [apply_event, cached_task_severity, hsite]

/-- Witness of C3: in the state left by a call for task 5 with overrides, the
next call for task 5 with overrides is a hit; and three calls at one call
site fetch once. -/
theorem cached_task_severity_hit_no_fetch_witness :
    IsHit (cached_task_severity exampleSeverity freshCtx 5 1).ctx 5 (decide ((1 : Int) ≠ 0)) ∧
      ((cached_task_severity exampleSeverity
          (cached_task_severity exampleSeverity freshCtx 5 1).ctx 5 1).fetched = [] ∧
        (cached_task_severity exampleSeverity
            (cached_task_severity exampleSeverity freshCtx 5 1).ctx 5 1).ctx
          = (cached_task_severity exampleSeverity freshCtx 5 1).ctx) ∧
      (∀ event ∈ [CacheEvent.call 0, CacheEvent.call 0],
        ∃ s, event = .call s ∧ (s = 0 ∨ s ∈ freshStmt.sites)) ∧
      (runFetched exampleSeverity 5 1 (.call 0 :: [.call 0, .call 0]) freshStmt).length ≤ 1 := by
  have hrest : ∀ event ∈ [CacheEvent.call 0, CacheEvent.call 0],
      ∃ s, event = .call s ∧ (s = 0 ∨ s ∈ freshStmt.sites) := by
    intro event hevent
    simp only [List.mem_cons, List.mem_singleton, List.not_mem_nil, or_false, or_self] at hevent
    exact ⟨0, hevent, Or.inl rfl⟩
  exact ⟨by constructor <;> decide,
    (cached_task_severity_hit_no_fetch exampleSeverity
      (cached_task_severity exampleSeverity freshCtx 5 1).ctx 5 1).1
      (by constructor <;> decide),
    hrest,
    (cached_task_severity_hit_no_fetch exampleSeverity freshCtx 5 1).2.1 freshStmt 0
      [.call 0, .call 0] hrest⟩

/-- C4: a call that misses for flag `f` (no statement cache yet, or the slot of
`f` holds another task) leaves in the slot of `f` the requested task and the
severity `task_severity` returns for it, and leaves the task and the severity
of the other slot as they were. -/
theorem cached_task_severity_miss_replaces_one_slot
    (task_severity : task_t → Int → Option CStr)
    (ctx : CacheCtx) (task : task_t) (f : Bool) (hmiss : ¬ IsHit ctx task f) :
    (cached_task_severity task_severity ctx task (flagInt f)).fetched = [(task, flagInt f)] ∧
      slotTask (cached_task_severity task_severity ctx task (flagInt f)).ctx.static_cache f
        = task ∧
      slotSeverity (cached_task_severity task_severity ctx task (flagInt f)).ctx.static_cache f
        = task_severity task (flagInt f) ∧
      slotTask (cached_task_severity task_severity ctx task (flagInt f)).ctx.static_cache (!f)
        = slotTask ctx.static_cache (!f) ∧
      slotSeverity (cached_task_severity task_severity ctx task (flagInt f)).ctx.static_cache (!f)
        = slotSeverity ctx.static_cache (!f) := by
  unfold IsHit slotTask at hmiss
  unfold cached_task_severity slotTask slotSeverity flagInt
  cases f <;> by_cases ha : ctx.auxdata = true <;> simp_all

/-- Witness of C4: in the state left by a call for task 3 without overrides,
a call for task 5 with overrides misses; it fills the overrides slot and
leaves the plain slot alone. -/
theorem cached_task_severity_miss_replaces_one_slot_witness :
    ¬ IsHit (cached_task_severity exampleSeverity freshCtx 3 0).ctx 5 true ∧
      slotTask (cached_task_severity exampleSeverity
        (cached_task_severity exampleSeverity freshCtx 3 0).ctx 5 (flagInt true)).ctx.static_cache
        (!true) = 3 :=
  ⟨by unfold IsHit; decide,
    ((cached_task_severity_miss_replaces_one_slot exampleSeverity
      (cached_task_severity exampleSeverity freshCtx 3 0).ctx 5 true
      (by unfold IsHit; decide)).2.2.2.1).trans (by decide)⟩

/-- C5: `clear_cache` leaves both task ids 0 and both severities absent,
whatever the cache held; hence a call for a task other than 0 on a cleared
cache is never a hit: it calls `task_severity`, whether or not auxiliary data
is present, and so does the first call of the statement that follows the end
of a statement. -/
theorem clear_cache_empties (cache : sql_severity_t) :
    (clear_cache cache).task = 0 ∧ (clear_cache cache).overrides_task = 0 ∧
      (clear_cache cache).severity = none ∧ (clear_cache cache).overrides_severity = none ∧
      (∀ (task_severity : task_t → Int → Option CStr) (auxdata : Bool) (task : task_t)
          (f : Bool), task ≠ 0 →
        (cached_task_severity task_severity
          { static_cache := clear_cache cache, auxdata := auxdata } task (flagInt f)).fetched
          = [(task, flagInt f)]) ∧
      (∀ (task_severity : task_t → Int → Option CStr) (task : task_t) (f : Bool),
        (cached_task_severity task_severity
          (end_statement { static_cache := cache, auxdata := true }) task (flagInt f)).fetched
          = [(task, flagInt f)]) := by
  refine ⟨rfl, rfl, rfl, rfl, ?_, ?_⟩
  · intro task_severity auxdata task f htask
    have h0 : ¬ (0 : Int) = task := fun h => htask h.symm
    cases f <;> cases auxdata <;> simp [cached_task_severity, clear_cache, flagInt, h0]
  · intro task_severity task f
    cases f <;> simp [cached_task_severity, end_statement, flagInt]

/-- Witness of C5: after the cache that served task 5 with overrides is
cleared, a call for task 5 with overrides fetches again. -/
theorem clear_cache_empties_witness :
    (5 : Int) ≠ 0 ∧
      (cached_task_severity exampleSeverity
        { static_cache := clear_cache (cached_task_severity exampleSeverity freshCtx 5 1).ctx.static_cache
          auxdata := true } 5 (flagInt true)).fetched = [(5, flagInt true)] :=
  ⟨by decide,
    (clear_cache_empties (cached_task_severity exampleSeverity freshCtx 5 1).ctx.static_cache).2.2.2.2.1
      exampleSeverity true 5 true (by decide)⟩

/-! ## Host lists -/

theorem g_strchug_eq_dropWhile (s : CStr) : g_strchug s = s.dropWhile g_ascii_isspace := by
  induction s with
  | nil => rfl
  | cons c cs ih =>
    by_cases h : g_ascii_isspace c = true <;> simp [g_strchug, List.dropWhile, h, ih]

theorem g_strchomp_loop_eq_rdropWhile (s : CStr) :
    g_strchomp_loop s s.length = s.rdropWhile g_ascii_isspace := by
  induction s using List.reverseRecOn with
  | nil => rfl
  | append_singleton l x ih =>
    have hget : (l ++ [x])[l.length]? = some x := by simp
    have htake : (l ++ [x]).take l.length = l := by simp
    rw [List.length_append, List.length_singleton, g_strchomp_loop, hget]
    simp only [htake, ih, List.rdropWhile_concat]

theorem g_strstrip_eq_trimmed (s : CStr) : g_strstrip s = trimmed s := by
  unfold g_strstrip g_strchomp trimmed
  rw [g_strchomp_loop_eq_rdropWhile, g_strchug_eq_dropWhile]

theorem g_strsplit_pieces_eq_splitOn (d : Char) (s : CStr) :
    g_strsplit_pieces d s = s.splitOn d := by
  induction s with
  | nil => rfl
  | cons c cs ih =>
    have hcons : (c :: cs).splitOn d
        = if c = d then [] :: cs.splitOn d else (cs.splitOn d).modifyHead (List.cons c) := by
      simp only [List.splitOn, List.splitOnP_cons]
      simp
    rw [hcons, g_strsplit_pieces, ih]
    by_cases h : c = d
    · simp [h]
    · simp only [h, if_false]
      cases hs : cs.splitOn d with
      | nil => exact absurd hs (List.splitOnP_ne_nil _ _)
      | cons p ps => rfl

theorem g_strsplit_eq_commaTokens (hosts : CStr) : g_strsplit hosts ',' = commaTokens hosts := by
  unfold g_strsplit commaTokens
  rw [g_strsplit_pieces_eq_splitOn]

theorem sql_hosts_contains_loop_eq (stripped_host : CStr) (split : List CStr) :
    sql_hosts_contains_loop stripped_host split
      = if ∃ point ∈ split, g_strstrip point = stripped_host then 1 else 0 := by
  induction split with
  | nil => simp [sql_hosts_contains_loop]
  | cons p ps ih =>
    by_cases h : g_strstrip p = stripped_host
    · simp [sql_hosts_contains_loop, h]
    · simp [sql_hosts_contains_loop, h, ih]

/-- C6: for hosts and host both present, `sql_hosts_contains` yields the
integer 1 if the host with its surrounding whitespace removed equals some
comma-separated token of the hosts with its surrounding whitespace removed,
and the integer 0 otherwise (the empty hosts string has no token); for the
hosts `a.com,b.com` and the host `b.com` followed by a space it yields 1. -/
theorem sql_hosts_contains_iff (hosts host : CStr) :
    sql_hosts_contains (some hosts) (some host)
        = .int (if ∃ token ∈ commaTokens hosts, trimmed token = trimmed host then 1 else 0) ∧
      (sql_hosts_contains (some hosts) (some host) = .int 1 ↔
        ∃ token ∈ commaTokens hosts, trimmed token = trimmed host) ∧
      sql_hosts_contains (some "a.com,b.com".toList) (some "b.com ".toList) = .int 1 := by
  have hmain : sql_hosts_contains (some hosts) (some host)
      = .int (if ∃ token ∈ commaTokens hosts, trimmed token = trimmed host then 1 else 0) := by
    simp only [sql_hosts_contains, sql_hosts_contains_loop_eq, g_strsplit_eq_commaTokens,
      g_strstrip_eq_trimmed]
  refine ⟨hmain, ?_, by decide⟩
  rw [hmain]
  by_cases h : ∃ token ∈ commaTokens hosts, trimmed token = trimmed host
  · simp [h]
  · simp [h]

/-- C7: two host strings whose tokens, with surrounding whitespace removed,
form the same set give the same result for every host, whatever the order of
the tokens and however often each is repeated. -/
theorem sql_hosts_contains_same_tokens (hosts₁ hosts₂ host : CStr)
    (hset : ∀ token : CStr, token ∈ (commaTokens hosts₁).map trimmed ↔
      token ∈ (commaTokens hosts₂).map trimmed) :
    sql_hosts_contains (some hosts₁) (some host) = sql_hosts_contains (some hosts₂) (some host) := by
  have key : ∀ hosts : CStr, (∃ token ∈ commaTokens hosts, trimmed token = trimmed host) ↔
      trimmed host ∈ (commaTokens hosts).map trimmed := by
    intro hosts
    simp only [List.mem_map]
  simp only [sql_hosts_contains, sql_hosts_contains_loop_eq, g_strsplit_eq_commaTokens,
    g_strstrip_eq_trimmed, key, hset (trimmed host)]

/-- Witness of C7: `a.com,b.com` and the reordered, padded list with `a.com`
repeated have the same tokens, and agree on the host `b.com`. -/
theorem sql_hosts_contains_same_tokens_witness :
    (∀ token : CStr, token ∈ (commaTokens "a.com,b.com".toList).map trimmed ↔
        token ∈ (commaTokens "b.com , a.com,a.com".toList).map trimmed) ∧
      sql_hosts_contains (some "a.com,b.com".toList) (some "b.com".toList)
        = sql_hosts_contains (some "b.com , a.com,a.com".toList) (some "b.com".toList) := by
  have h₁ : (commaTokens "a.com,b.com".toList).map trimmed
      = ["a.com".toList, "b.com".toList] := by decide
  have h₂ : (commaTokens "b.com , a.com,a.com".toList).map trimmed
      = ["b.com".toList, "a.com".toList, "a.com".toList] := by decide
  have hset : ∀ token : CStr, token ∈ (commaTokens "a.com,b.com".toList).map trimmed ↔
      token ∈ (commaTokens "b.com , a.com,a.com".toList).map trimmed := by
    intro token
    rw [h₁, h₂]
    simp only [List.mem_cons, List.mem_singleton, List.not_mem_nil, or_false]
    tauto
  exact ⟨hset, sql_hosts_contains_same_tokens _ _ _ hset⟩

/-! ## Unique names -/

/-- The separator character written by both `printf` calls of `sql_uniquify`. -/
theorem separator_eq (type : CStr) :
    (if type ≠ "user".toList then ' ' else '_') = separator type := by
  unfold separator
  by_cases h : type = "user".toList <;> simp [h]

/-- One round of the probing loop. -/
theorem sql_uniquify_loop_succ (sql_int : CStr → CStr → Nat → Int)
    (type proposed_name suffix : CStr) (owner fuel number : Nat) (candidate_name : CStr) :
    sql_uniquify_loop sql_int type proposed_name suffix owner (fuel + 1) number candidate_name
      = if sql_int type candidate_name owner ≠ 0 then
          sql_uniquify_loop sql_int type proposed_name suffix owner fuel ((number + 1) % 2 ^ 32)
            (proposed_name ++ suffix ++ [separator type]
              ++ Nat.toDigits 10 ((number + 1) % 2 ^ 32))
        else some candidate_name := by
  rw [sql_uniquify_loop]
  simp only [separator_eq, printf_u, Nat.mod_mod]

/-- The function `sql_uniquify` with all three texts present is the probing
loop entered with number 1 and the first candidate. -/
theorem sql_uniquify_eq_loop (sql_int : CStr → CStr → Nat → Int) (fuel : Nat)
    (type proposed_name suffix : CStr) (owner : Option Int) :
    sql_uniquify sql_int fuel (some type) (some proposed_name) owner (some suffix)
      = (sql_uniquify_loop sql_int type proposed_name suffix ((owner.getD 0) % 2 ^ 64).toNat
          fuel 1 (candidate type proposed_name suffix 1)).map SqlResult.text := by
  have h1 : printf_i ((0 + 1) % 2 ^ 32) = Nat.toDigits 10 1 := by decide
  simp only [sql_uniquify, separator_eq, h1, candidate]
  rfl

/-- A name returned by the probing loop is one the existence check reports
absent. -/
theorem sql_uniquify_loop_free (sql_int : CStr → CStr → Nat → Int)
    (type proposed_name suffix : CStr) (owner : Nat) (name : CStr) :
    ∀ (fuel number : Nat) (candidate_name : CStr),
      sql_uniquify_loop sql_int type proposed_name suffix owner fuel number candidate_name
        = some name → sql_int type name owner = 0 := by
  intro fuel
  induction fuel with
  | zero => intro number candidate_name h; simp [sql_uniquify_loop] at h
  | succ fuel ih =>
    intro number candidate_name h
    rw [sql_uniquify_loop_succ] at h
    by_cases hc : sql_int type candidate_name owner = 0
    · simp only [hc, ne_eq, not_true_eq_false, if_false, Option.some.injEq] at h
      rw [← h]; exact hc
    · simp only [ne_eq, hc, not_false_eq_true, if_true] at h
      exact ih _ _ h

/-- A name returned by the probing loop is the candidate it was entered with
or a later candidate of the sequence. -/
theorem sql_uniquify_loop_form (sql_int : CStr → CStr → Nat → Int)
    (type proposed_name suffix : CStr) (owner : Nat) (name : CStr) :
    ∀ (fuel number : Nat) (candidate_name : CStr),
      sql_uniquify_loop sql_int type proposed_name suffix owner fuel number candidate_name
        = some name →
      name = candidate_name ∨ ∃ n, n < 2 ^ 32 ∧ name = candidate type proposed_name suffix n := by
  intro fuel
  induction fuel with
  | zero => intro number candidate_name h; simp [sql_uniquify_loop] at h
  | succ fuel ih =>
    intro number candidate_name h
    rw [sql_uniquify_loop_succ] at h
    by_cases hc : sql_int type candidate_name owner = 0
    · simp only [hc, ne_eq, not_true_eq_false, if_false, Option.some.injEq] at h
      exact Or.inl h.symm
    · simp only [ne_eq, hc, not_false_eq_true, if_true] at h
      rcases ih _ _ h with h' | h'
      · exact Or.inr ⟨(number + 1) % 2 ^ 32, Nat.mod_lt _ (by norm_num), h'⟩
      · exact Or.inr h'

/-- Entered at the `k`-th candidate with the candidates from `k` up to `n`
taken and the `n`-th free, `n` below `2 ^ 32`, the probing loop returns the
`n`-th candidate as soon as the fuel exceeds `n - k`. -/
theorem sql_uniquify_loop_reaches (sql_int : CStr → CStr → Nat → Int)
    (type proposed_name suffix : CStr) (owner n : Nat) (hn : n < 2 ^ 32)
    (hfree : sql_int type (candidate type proposed_name suffix n) owner = 0) :
    ∀ (d k fuel : Nat), k + d = n → d < fuel →
      (∀ m, k ≤ m → m < n → sql_int type (candidate type proposed_name suffix m) owner ≠ 0) →
      sql_uniquify_loop sql_int type proposed_name suffix owner fuel k
        (candidate type proposed_name suffix k)
        = some (candidate type proposed_name suffix n) := by
  intro d
  induction d with
  | zero =>
    intro k fuel hk hfuel _
    obtain ⟨fuel, rfl⟩ : ∃ f, fuel = f + 1 := ⟨fuel - 1, by omega⟩
    have hkn : k = n := by omega
    subst hkn
    rw [sql_uniquify_loop_succ]
    simp [hfree]
  | succ d ih =>
    intro k fuel hk hfuel htaken
    obtain ⟨fuel, rfl⟩ : ∃ f, fuel = f + 1 := ⟨fuel - 1, by omega⟩
    have hkt := htaken k (Nat.le_refl k) (by omega)
    have hmod : (k + 1) % 2 ^ 32 = k + 1 := Nat.mod_eq_of_lt (by omega)
    rw [sql_uniquify_loop_succ]
    simp only [ne_eq, hkt, not_false_eq_true, if_true, hmod]
    exact ih (k + 1) fuel (by omega) (by omega) (fun m hm hmn => htaken m (by omega) hmn)

/-- Every candidate of the worked example `Task`, ` Clone`, type `task` with a
number below `2 ^ 32` has at most 21 characters. -/
theorem candidate_length_le (number : Nat) :
    ("Task".toList ++ " Clone".toList ++ [separator "task".toList]
      ++ Nat.toDigits 10 (number % 2 ^ 32)).length ≤ 21 := by
  have hlt : number % 2 ^ 32 < 10 ^ 10 :=
    Nat.lt_trans (Nat.mod_lt _ (by norm_num)) (by norm_num)
  have hlen := Nat.toDigitsCore_length 10 (by decide) (number % 2 ^ 32 + 1)
    (number % 2 ^ 32) 10 hlt (by decide)
  simp only [List.length_append, Nat.toDigits]
  have h11 : ("Task".toList ++ " Clone".toList).length + [separator "task".toList].length = 11 := by
    decide
  simp only [List.length_append] at h11
  omega

/-- When every name of at most 21 characters is taken, the probing loop of the
worked example never returns. -/
theorem crowded_loop_none :
    ∀ (fuel number : Nat) (candidate_name : CStr), candidate_name.length ≤ 21 →
      sql_uniquify_loop crowded_sql_int "task".toList "Task".toList " Clone".toList 7
        fuel number candidate_name = none := by
  intro fuel
  induction fuel with
  | zero => intro number candidate_name _; rfl
  | succ fuel ih =>
    intro number candidate_name hlen
    rw [sql_uniquify_loop_succ]
    have hc : crowded_sql_int "task".toList candidate_name 7 ≠ 0 := by
      simp [crowded_sql_int, hlen]
    simp only [ne_eq, hc, not_false_eq_true, if_true]
    exact ih _ _ (candidate_length_le (number + 1))

/-- C8, as stated, fails: with every name of at most 21 characters taken, the
candidate numbered `10 ^ 10` is free, yet `sql_uniquify` for `Task`, ` Clone`
and type `task` returns no name however long it runs: the 32-bit counter wraps
around before it reaches a free candidate. -/
theorem sql_uniquify_counter_wraps :
    crowded_sql_int "task".toList
        (candidate "task".toList "Task".toList " Clone".toList (10 ^ 10)) 7 = 0 ∧
      ∀ fuel : Nat,
        sql_uniquify crowded_sql_int fuel (some "task".toList) (some "Task".toList) (some 7)
          (some " Clone".toList) = none := by
  refine ⟨by decide, ?_⟩
  intro fuel
  rw [sql_uniquify_eq_loop]
  have h7 : (((some (7 : Int)).getD 0) % 2 ^ 64).toNat = 7 := by decide
  rw [h7, crowded_loop_none fuel 1 _ (by decide)]
  rfl

/-- C8, amended: when the least number `n ≥ 1` whose candidate the existence
check reports absent is below `2 ^ 32`, `sql_uniquify` returns, as soon as it
may make `n` probes, the name `proposed ++ suffix ++ sep ++ decimal n`: that
name does not exist and every candidate with a smaller number does. -/
theorem sql_uniquify_least_free (sql_int : CStr → CStr → Nat → Int)
    (type proposed_name suffix : CStr) (owner : Option Int) (n fuel : Nat)
    (hn1 : 1 ≤ n) (hn : n < 2 ^ 32)
    (hfree : sql_int type (candidate type proposed_name suffix n)
      ((owner.getD 0) % 2 ^ 64).toNat = 0)
    (htaken : ∀ m, 1 ≤ m → m < n →
      sql_int type (candidate type proposed_name suffix m) ((owner.getD 0) % 2 ^ 64).toNat ≠ 0)
    (hfuel : n ≤ fuel) :
    sql_uniquify sql_int fuel (some type) (some proposed_name) owner (some suffix)
      = some (.text (candidate type proposed_name suffix n)) := by
  rw [sql_uniquify_eq_loop,
    sql_uniquify_loop_reaches sql_int type proposed_name suffix _ n hn hfree (n - 1) 1 fuel
      (by omega) (by omega) htaken]
  rfl

/-- Witness of C8: with exactly `Task Clone 1` and `Task Clone 2` taken, the
name made from `Task` and ` Clone` for the type `task` is `Task Clone 3`. -/
theorem sql_uniquify_least_free_witness :
    sql_uniquify example_sql_int 3 (some "task".toList) (some "Task".toList) (some 7)
        (some " Clone".toList) = some (.text "Task Clone 3".toList) :=
  sql_uniquify_least_free example_sql_int "task".toList "Task".toList " Clone".toList (some 7)
    3 3 (by decide) (by decide) (by decide)
    (by
      intro m h1 h3
      obtain rfl | rfl : m = 1 ∨ m = 2 := by omega
      · decide
      · decide)
    (by decide)

/-- C9: the separator is a function of the type alone, `_` exactly for the
type `user` and a space for every other type, and both `printf` calls of
`sql_uniquify` write it: the first candidate and the candidate built in each
round of the loop are `proposed ++ suffix ++ separator ++ number`. -/
theorem sql_uniquify_separator (sql_int : CStr → CStr → Nat → Int)
    (type proposed_name suffix : CStr) (owner : Option Int) :
    (separator type = '_' ↔ type = "user".toList) ∧
      (separator type = ' ' ↔ type ≠ "user".toList) ∧
      (∀ fuel : Nat,
        sql_uniquify sql_int fuel (some type) (some proposed_name) owner (some suffix)
          = (sql_uniquify_loop sql_int type proposed_name suffix ((owner.getD 0) % 2 ^ 64).toNat
              fuel 1 (proposed_name ++ suffix ++ [separator type] ++ ['1'])).map
              SqlResult.text) ∧
      (∀ (fuel number : Nat) (candidate_name : CStr),
        sql_uniquify_loop sql_int type proposed_name suffix ((owner.getD 0) % 2 ^ 64).toNat
            (fuel + 1) number candidate_name
          = if sql_int type candidate_name ((owner.getD 0) % 2 ^ 64).toNat ≠ 0 then
              sql_uniquify_loop sql_int type proposed_name suffix
                ((owner.getD 0) % 2 ^ 64).toNat fuel ((number + 1) % 2 ^ 32)
                (proposed_name ++ suffix ++ [separator type]
                  ++ Nat.toDigits 10 ((number + 1) % 2 ^ 32))
            else some candidate_name) ∧
      (∀ (fuel : Nat) (r : SqlResult),
        sql_uniquify sql_int fuel (some type) (some proposed_name) owner (some suffix) = some r →
        ∃ n, n < 2 ^ 32 ∧
          r = .text (proposed_name ++ suffix ++ [separator type] ++ Nat.toDigits 10 n)) := by
  refine ⟨?_, ?_, ?_, ?_, ?_⟩
  · unfold separator
    by_cases h : type = "user".toList <;> simp [h]
  · unfold separator
    by_cases h : type = "user".toList <;> simp [h]
  · intro fuel
    exact sql_uniquify_eq_loop sql_int fuel type proposed_name suffix owner
  · intro fuel number candidate_name
    exact sql_uniquify_loop_succ sql_int type proposed_name suffix _ fuel number candidate_name
  · intro fuel r hr
    rw [sql_uniquify_eq_loop] at hr
    cases hl : sql_uniquify_loop sql_int type proposed_name suffix
        ((owner.getD 0) % 2 ^ 64).toNat fuel 1 (candidate type proposed_name suffix 1) with
    | none => rw [hl] at hr; simp at hr
    | some name =>
      rw [hl] at hr
      simp only [Option.map_some', Option.some.injEq] at hr
      rcases sql_uniquify_loop_form sql_int type proposed_name suffix _ name _ _ _ hl with h | h
      · exact ⟨1, by norm_num, by rw [← hr, h]; rfl⟩
      · obtain ⟨n, hn, hname⟩ := h
        exact ⟨n, hn, by rw [← hr, hname]; rfl⟩

/-- Witness of C9: the name returned in the worked example is built with a
space, the separator of the type `task`. -/
theorem sql_uniquify_separator_witness :
    sql_uniquify example_sql_int 3 (some "task".toList) (some "Task".toList) (some 7)
        (some " Clone".toList) = some (.text "Task Clone 3".toList) ∧
      ∃ n, n < 2 ^ 32 ∧ SqlResult.text "Task Clone 3".toList
        = .text ("Task".toList ++ " Clone".toList ++ [separator "task".toList]
            ++ Nat.toDigits 10 n) :=
  ⟨by decide,
    (sql_uniquify_separator example_sql_int "task".toList "Task".toList " Clone".toList
      (some 7)).2.2.2.2 3 (.text "Task Clone 3".toList) (by decide)⟩

/-- The count query of `sql_uniquify` is non-zero exactly when the table holds
a row of that name whose owner is NULL or the given owner. -/
theorem count_named_ne_zero_iff (rows : List NamedRow) (name : CStr) (owner : Nat) :
    count_named rows name owner ≠ 0 ↔
      ∃ row ∈ rows, row.name = name ∧ (row.owner = none ∨ row.owner = some (owner : Int)) := by
  unfold count_named
  rw [Ne, Int.natCast_eq_zero, List.length_eq_zero, ← Ne, ← List.length_pos,
    List.length_pos_iff_exists_mem]
  constructor
  · rintro ⟨row, hrow⟩
    rw [List.mem_filter] at hrow
    refine ⟨row, hrow.1, ?_⟩
    simpa [Option.isNone_iff_eq_none] using hrow.2
  · rintro ⟨row, hmem, hrow⟩
    refine ⟨row, ?_⟩
    rw [List.mem_filter]
    refine ⟨hmem, ?_⟩
    simpa [Option.isNone_iff_eq_none] using hrow

/-- C10, as stated, fails on both counts.  With a NULL owner the check is not
global: the table `tasks` holds a row named `Task Clone 1` owned by user 7,
and `sql_uniquify` still returns `Task Clone 1`.  With a non-NULL owner a
candidate collides with a row that owner does not own: the only row named
`Task Clone 1` has a NULL owner, and for owner 7 `sql_uniquify` passes over
that name and returns `Task Clone 2`. -/
theorem sql_uniquify_owner_scope_counterexample :
    ({ name := "Task Clone 1".toList, owner := some 7 } : NamedRow) ∈ ownedDb "tasks".toList ∧
      sql_uniquify (db_sql_int ownedDb) 1 (some "task".toList) (some "Task".toList) none
        (some " Clone".toList) = some (.text "Task Clone 1".toList) ∧
      (∀ row ∈ globalDb "tasks".toList, row.owner ≠ some 7) ∧
      sql_uniquify (db_sql_int globalDb) 2 (some "task".toList) (some "Task".toList) (some 7)
        (some " Clone".toList) = some (.text "Task Clone 2".toList) := by
  refine ⟨by decide, by decide, ?_, by decide⟩
  intro row hrow
  have hrows : globalDb "tasks".toList
      = [{ name := "Task Clone 1".toList, owner := none }] := by decide
  rw [hrows, List.mem_singleton] at hrow
  rw [hrow]
  decide

/-- C10, amended: the owner argument `o` of `sql_uniquify` (a NULL argument is
read as 0) is written into the query with `%llu`, that is as `o mod 2 ^ 64`:
`o` itself for `0 ≤ o < 2 ^ 64`, `o + 2 ^ 64` for a negative `o`.  The
existence check reports a candidate name as taken exactly when the table
`<type>s` holds a row of that name whose owner is NULL or is that number; a
name that `sql_uniquify` returns collides with no such row, and the first
candidate is returned exactly when no such row bears its name. -/
theorem sql_uniquify_owner_scope (db : CStr → List NamedRow)
    (type proposed_name suffix : CStr) (owner : Option Int) :
    (∀ name : CStr,
        db_sql_int db type name ((owner.getD 0) % 2 ^ 64).toNat ≠ 0 ↔
          ∃ row ∈ db (type ++ "s".toList), row.name = name ∧
            (row.owner = none ∨ row.owner = some (((owner.getD 0) % 2 ^ 64).toNat : Int))) ∧
      (∀ (fuel : Nat) (name : CStr),
        sql_uniquify (db_sql_int db) fuel (some type) (some proposed_name) owner (some suffix)
            = some (.text name) →
          ¬ ∃ row ∈ db (type ++ "s".toList), row.name = name ∧
            (row.owner = none ∨ row.owner = some (((owner.getD 0) % 2 ^ 64).toNat : Int))) ∧
      (∀ fuel : Nat,
        sql_uniquify (db_sql_int db) (fuel + 1) (some type) (some proposed_name) owner
            (some suffix) = some (.text (candidate type proposed_name suffix 1)) ↔
          ¬ ∃ row ∈ db (type ++ "s".toList), row.name = candidate type proposed_name suffix 1 ∧
            (row.owner = none ∨ row.owner = some (((owner.getD 0) % 2 ^ 64).toNat : Int))) ∧
      ((((owner.getD 0) % 2 ^ 64).toNat : Int) = (owner.getD 0) % 2 ^ 64 ∧
        (0 ≤ owner.getD 0 → owner.getD 0 < 2 ^ 64 →
          (owner.getD 0) % 2 ^ 64 = owner.getD 0) ∧
        (owner.getD 0 < 0 → -2 ^ 64 ≤ owner.getD 0 →
          (owner.getD 0) % 2 ^ 64 = owner.getD 0 + 2 ^ 64)) := by
  have hprobe : ∀ name : CStr,
      db_sql_int db type name ((owner.getD 0) % 2 ^ 64).toNat ≠ 0 ↔
        ∃ row ∈ db (type ++ "s".toList), row.name = name ∧
          (row.owner = none ∨ row.owner = some (((owner.getD 0) % 2 ^ 64).toNat : Int)) :=
    fun name => count_named_ne_zero_iff _ _ _
  have hret : ∀ (fuel : Nat) (name : CStr),
      sql_uniquify (db_sql_int db) fuel (some type) (some proposed_name) owner (some suffix)
          = some (.text name) →
        db_sql_int db type name ((owner.getD 0) % 2 ^ 64).toNat = 0 := by
    intro fuel name h
    rw [sql_uniquify_eq_loop] at h
    cases hl : sql_uniquify_loop (db_sql_int db) type proposed_name suffix
        ((owner.getD 0) % 2 ^ 64).toNat fuel 1 (candidate type proposed_name suffix 1) with
    | none => rw [hl] at h; simp at h
    | some name' =>
      rw [hl] at h
      simp only [Option.map_some', Option.some.injEq, SqlResult.text.injEq] at h
      rw [← h]
      exact sql_uniquify_loop_free _ _ _ _ _ _ _ _ _ hl
  refine ⟨hprobe, ?_, ?_, ?_, ?_, ?_⟩
  · intro fuel name h
    rw [← hprobe name]
    exact fun hne => hne (hret fuel name h)
  · intro fuel
    rw [← hprobe]
    constructor
    · intro h
      exact fun hne => hne (hret _ _ h)
    · intro h
      rw [sql_uniquify_eq_loop, sql_uniquify_loop_succ]
      simp only [h, if_false, Option.map_some']
  · exact Int.toNat_of_nonneg (Int.emod_nonneg _ (by norm_num))
  · intro h0 h1
    exact Int.emod_eq_of_lt h0 h1
  · intro h0 h1
    rw [← Int.add_emod_self, Int.emod_eq_of_lt (by omega) (by omega)]

/-- Witness of C10: for owner 7 the name `Task Clone 2` is returned over the
table holding `Task Clone 1` with a NULL owner, and no row of the table
collides with it. -/
theorem sql_uniquify_owner_scope_witness :
    sql_uniquify (db_sql_int globalDb) 2 (some "task".toList) (some "Task".toList) (some 7)
        (some " Clone".toList) = some (.text "Task Clone 2".toList) ∧
      ¬ ∃ row ∈ globalDb ("task".toList ++ "s".toList), row.name = "Task Clone 2".toList ∧
        (row.owner = none ∨ row.owner = some ((((some (7 : Int)).getD 0) % 2 ^ 64).toNat : Int)) :=
  ⟨by decide,
    (sql_uniquify_owner_scope globalDb "task".toList "Task".toList " Clone".toList (some 7)).2.1
      2 "Task Clone 2".toList (by decide)⟩

/-- A negative owner does not collide with the rows it owns: for the owner -1
the query asks for the owner 18446744073709551615, so `Task Clone 1` is
returned although a row of that name is owned by -1. -/
theorem sql_uniquify_negative_owner :
    ({ name := "Task Clone 1".toList, owner := some (-1) } : NamedRow)
        ∈ negativeDb "tasks".toList ∧
      ((((some (-1 : Int)).getD 0) % 2 ^ 64).toNat = 18446744073709551615) ∧
      sql_uniquify (db_sql_int negativeDb) 1 (some "task".toList) (some "Task".toList)
        (some (-1)) (some " Clone".toList) = some (.text "Task Clone 1".toList) := by
  refine ⟨by decide, by decide, by decide⟩

/-! ## Severity overrides -/

/-- C11: for every severity that is present, `sql_severity_matches_ov` yields
1 when the override severity is SQL NULL or the empty text, and makes no call
of `severity_matches_ov` then; when the override severity is a text that is
not empty, it makes one call of `severity_matches_ov` on the two numbers and
yields what that call returns. -/
theorem sql_severity_matches_ov_wildcard {D : Type} (severity_matches_ov : D → D → Int)
    (severity_text : CStr) (severity : D) :
    sql_severity_matches_ov severity_matches_ov (.value severity_text severity) .null
        = { result := .int 1, consulted := [] } ∧
      (∀ ov_severity : D,
        sql_severity_matches_ov severity_matches_ov (.value severity_text severity)
            (.value "".toList ov_severity)
          = { result := .int 1, consulted := [] }) ∧
      (∀ (ov_text : CStr) (ov_severity : D), ov_text ≠ "".toList →
        sql_severity_matches_ov severity_matches_ov (.value severity_text severity)
            (.value ov_text ov_severity)
          = { result := .int (severity_matches_ov severity ov_severity)
              consulted := [(severity, ov_severity)] }) := by
  refine ⟨rfl, fun _ => ?_, fun ov_text ov_severity h => ?_⟩
  · simp [sql_severity_matches_ov]
  · simp only [sql_severity_matches_ov, if_neg h]

/-- Witness of C11: severity 5 against the override `7`, which is not empty,
is decided by `severity_matches_ov`. -/
theorem sql_severity_matches_ov_wildcard_witness :
    "7".toList ≠ "".toList ∧
      sql_severity_matches_ov example_matches_ov (.value "5".toList 5) (.value "7".toList 7)
        = { result := .int 0, consulted := [(5, 7)] } :=
  ⟨by decide,
    (sql_severity_matches_ov_wildcard example_matches_ov "5".toList 5).2.2 "7".toList 7
      (by decide)⟩

/-- A severity that is SQL NULL is reported as an error, whatever the
override. -/
theorem sql_severity_matches_ov_null {D : Type} (severity_matches_ov : D → D → Int)
    (argv1 : SqlValue D) :
    sql_severity_matches_ov severity_matches_ov .null argv1
      = { result := .error "First parmeter of severity_matches_ov is NULL".toList
          consulted := [] } := rfl

/-! ## Times -/

/-- A value within the range of `int` is unchanged by the reduction to 32
bits. -/
theorem to_int_of_range (x : Int) (hlo : -2 ^ 31 ≤ x) (hhi : x < 2 ^ 31) : to_int x = x := by
  unfold to_int
  rw [Int.emod_eq_of_lt (by omega) (by omega)]
  omega

/-- The reduction to 32 bits lands in the range of `int`. -/
theorem to_int_range (x : Int) : -2 ^ 31 ≤ to_int x ∧ to_int x < 2 ^ 31 := by
  unfold to_int
  have h1 := Int.emod_nonneg (x + 2 ^ 31) (show (2 : Int) ^ 32 ≠ 0 by norm_num)
  have h2 := Int.emod_lt_of_pos (x + 2 ^ 31) (show (0 : Int) < 2 ^ 32 by norm_num)
  constructor <;> omega

/-- The placeholder test of `sql_parse_time` is membership in the list of
placeholders. -/
theorem placeholder_test_iff (string : CStr) :
    (string = "".toList ∨ string = "$Date: $".toList ∨ string = "$Date$".toList
      ∨ string = "$Date:$".toList ∨ string = "$Date".toList ∨ string = "$$".toList)
      ↔ string ∈ time_placeholders := by
  simp [time_placeholders]

/-- When `strptime` returns `NULL` for every format, the chain fails after
trying them all. -/
theorem strptime_chain_all_null (strptime : CStr → CStr → tm → Option CStr × tm)
    (string : CStr) (formats : List CStr)
    (hnull : ∀ format ∈ formats, ∀ t, (strptime string format t).1 = none) (t : tm) :
    strptime_chain strptime string formats t = (none, formats) := by
  induction formats generalizing t with
  | nil => rfl
  | cons format rest ih =>
    have h := hnull format (List.mem_cons_self _ _) t
    have ih' := ih (fun g hg => hnull g (List.mem_cons_of_mem _ hg)) (strptime string format t).2
    rw [strptime_chain]
    cases hs : strptime string format t with
    | mk r t' =>
      rw [hs] at h ih'
      simp only at h
      subst h
      simp only [ih']

/-- The chain stops at the first format for which `strptime` returns a pointer,
whatever text that pointer leaves unprocessed. -/
theorem strptime_chain_first (strptime : CStr → CStr → tm → Option CStr × tm)
    (string : CStr) (pre : List CStr) (format : CStr) (post : List CStr) (rest : CStr)
    (hpre : ∀ g ∈ pre, ∀ t, (strptime string g t).1 = none) (t : tm)
    (hwin : (strptime string format (thread_tm strptime string pre t)).1 = some rest) :
    strptime_chain strptime string (pre ++ format :: post) t
      = (some (strptime string format (thread_tm strptime string pre t)).2, pre ++ [format]) := by
  induction pre generalizing t with
  | nil =>
    simp only [thread_tm] at hwin
    simp only [List.nil_append, strptime_chain, thread_tm]
    cases hs : strptime string format t with
    | mk r t' =>
      rw [hs] at hwin
      simp only at hwin
      subst hwin
      rfl
  | cons g gs ih =>
    have hg := hpre g (List.mem_cons_self _ _) t
    have ih' := ih (fun g' hg' => hpre g' (List.mem_cons_of_mem _ hg'))
      (strptime string g t).2 (by simpa [thread_tm] using hwin)
    simp only [List.cons_append, strptime_chain, thread_tm]
    cases hs : strptime string g t with
    | mk r t' =>
      rw [hs] at hg ih'
      simp only at hg ih'
      subst hg
      show ((strptime_chain strptime string (gs ++ format :: post) t').1,
          g :: (strptime_chain strptime string (gs ++ format :: post) t').2) = _
      rw [ih']

/-- When `sscanf` returns 1 for no pattern, the chain stores no offset after
trying them all. -/
theorem sscanf_chain_all_none (sscanf : CStr → CStr → Option Int) (string : CStr)
    (patterns : List CStr) (hnone : ∀ pattern ∈ patterns, sscanf string pattern = none) :
    sscanf_chain sscanf string patterns = (none, patterns) := by
  induction patterns with
  | nil => rfl
  | cons pattern rest ih =>
    have h := hnone pattern (List.mem_cons_self _ _)
    have ih' := ih (fun g hg => hnone g (List.mem_cons_of_mem _ hg))
    simp only [sscanf_chain, h, ih']

/-- A positive offset is subtracted, when nothing overflows. -/
theorem offset_to_utc_pos (e o : Int) (he : -2 ^ 31 ≤ e ∧ e < 2 ^ 31) (ho : 0 < o)
    (hr : -2 ^ 31 ≤ e - offset_seconds o) : offset_to_utc e o = e - offset_seconds o := by
  have habs : (o.natAbs : Int) = o := Int.natAbs_of_nonneg (le_of_lt ho)
  have hdiv : o.tdiv 100 = o / 100 := Int.tdiv_eq_ediv (le_of_lt ho) (by norm_num)
  have hmod : o.tmod 100 = o % 100 := Int.tmod_eq_emod (le_of_lt ho) (by norm_num)
  have hs : offset_seconds o = o / 100 * 3600 + o % 100 * 60 := by
    unfold offset_seconds
    push_cast
    rw [abs_of_pos ho]
  rw [hs] at hr ⊢
  unfold offset_to_utc
  simp only [not_lt_of_gt ho, if_false, gt_iff_lt, ho, if_true, hdiv, hmod]
  rw [to_int_of_range (e - o / 100 * 60 * 60) (by omega) (by omega),
    to_int_of_range _ (by omega) (by omega)]
  omega

/-- A negative offset is added, when nothing overflows. -/
theorem offset_to_utc_neg (e o : Int) (he : -2 ^ 31 ≤ e ∧ e < 2 ^ 31) (ho : o < 0)
    (ho' : -2 ^ 31 < o) (hr : e + offset_seconds o < 2 ^ 31) :
    offset_to_utc e o = e + offset_seconds o := by
  have habs : (o.natAbs : Int) = -o := by omega
  have hneg : to_int (-o) = -o := to_int_of_range _ (by omega) (by omega)
  have hdiv : (-o).tdiv 100 = -o / 100 := Int.tdiv_eq_ediv (by omega) (by norm_num)
  have hmod : (-o).tmod 100 = -o % 100 := Int.tmod_eq_emod (by omega) (by norm_num)
  have hs : offset_seconds o = -o / 100 * 3600 + -o % 100 * 60 := by
    unfold offset_seconds
    push_cast
    rw [abs_of_neg ho]
  rw [hs] at hr ⊢
  unfold offset_to_utc
  simp only [ho, if_true, hneg, hdiv, hmod]
  rw [to_int_of_range (e + -o / 100 * 60 * 60) (by omega) (by omega),
    to_int_of_range _ (by omega) (by omega)]
  omega

/-- The seconds of an offset do not depend on its sign. -/
theorem offset_seconds_neg (o : Int) : offset_seconds (-o) = offset_seconds o := by
  unfold offset_seconds
  rw [Int.natAbs_neg]

/-- The seconds of an offset are not negative. -/
theorem offset_seconds_nonneg (o : Int) : 0 ≤ offset_seconds o := by
  unfold offset_seconds
  positivity

/-- C12: for each of the six placeholder texts `sql_parse_time` yields the
integer 0 with no call of `strptime` or `sscanf` and no warning; for every
other text the placeholder branch is not taken: the first grammar is handed
to `strptime`. -/
theorem sql_parse_time_placeholders (libc : Libc) (tm0 : tm) (string : CStr) :
    time_placeholders = [ "".toList, "$Date: $".toList, "$Date$".toList, "$Date:$".toList,
        "$Date".toList, "$$".toList ] ∧
      (string ∈ time_placeholders →
        sql_parse_time libc tm0 string
          = { result := .int 0, attempted := [], scanned := [], warning := none }) ∧
      (string ∉ time_placeholders →
        (sql_parse_time libc tm0 string).attempted.head? = some "%F %T %z".toList) := by
  refine ⟨rfl, fun h => ?_, fun h => ?_⟩
  · rw [sql_parse_time, if_pos ((placeholder_test_iff string).mpr h)]
  · rw [sql_parse_time, if_neg (fun hp => h ((placeholder_test_iff string).mp hp))]
    have hhead : (strptime_chain libc.strptime string time_grammars tm0).2.head?
        = some "%F %T %z".toList := by
      simp only [time_grammars, strptime_chain]
      split <;> rfl
    cases hc : strptime_chain libc.strptime string time_grammars tm0 with
    | mk r attempted =>
      rw [hc] at hhead
      cases r with
      | none => exact hhead
      | some t =>
        simp only [sql_parse_time_finish]
        split
        · exact hhead
        · split <;> exact hhead

/-- Witness of C12: the text `$Date$` is a placeholder and yields 0 with no
grammar tried; the sample time is none and has the first grammar tried. -/
theorem sql_parse_time_placeholders_witness :
    "$Date$".toList ∈ time_placeholders ∧
      sql_parse_time sample_libc blank_tm "$Date$".toList
        = { result := .int 0, attempted := [], scanned := [], warning := none } ∧
      sample_time ∉ time_placeholders ∧
      (sql_parse_time sample_libc blank_tm sample_time).attempted.head?
        = some "%F %T %z".toList :=
  ⟨by decide,
    (sql_parse_time_placeholders sample_libc blank_tm "$Date$".toList).2.1 (by decide),
    by decide,
    (sql_parse_time_placeholders sample_libc blank_tm sample_time).2.2 (by decide)⟩

/-- C13: for a text that is no placeholder and for which `strptime` returns
`NULL` with each of the five grammars, `sql_parse_time` yields the integer 0
as its value, not an error, after trying the five grammars and logging the
text. -/
theorem sql_parse_time_unparsable (libc : Libc) (tm0 : tm) (string : CStr)
    (hplace : string ∉ time_placeholders)
    (hnull : ∀ format ∈ time_grammars, ∀ t, (libc.strptime string format t).1 = none) :
    sql_parse_time libc tm0 string
      = { result := .int 0, attempted := time_grammars, scanned := []
          warning := some ("sql_parse_time: Failed to parse time: ".toList ++ string) } := by
  rw [sql_parse_time, if_neg (fun hp => hplace ((placeholder_test_iff string).mp hp)),
    strptime_chain_all_null libc.strptime string time_grammars hnull tm0]

/-- Witness of C13: the text `next week` is matched by no grammar. -/
theorem sql_parse_time_unparsable_witness :
    "next week".toList ∉ time_placeholders ∧
      (∀ format ∈ time_grammars, ∀ t,
        (sample_libc.strptime "next week".toList format t).1 = none) ∧
      (sql_parse_time sample_libc blank_tm "next week".toList).result = .int 0 := by
  have hnull : ∀ format ∈ time_grammars, ∀ t,
      (sample_libc.strptime "next week".toList format t).1 = none := by
    intro format _ t
    have h1 : "next week".toList ≠ sample_time := by decide
    have h2 : "next week".toList ≠ sample_time_joined := by decide
    show (if format = "%F %T %z".toList ∧ "next week".toList = sample_time then _
      else if format = "%F %T %z".toList ∧ "next week".toList = sample_time_joined then _
      else (none, t)).1 = none
    rw [if_neg (fun h => h1 h.2), if_neg (fun h => h2 h.2)]
  exact ⟨by decide, hnull,
    by rw [sql_parse_time_unparsable sample_libc blank_tm "next week".toList (by decide) hnull]⟩

/-- C14: for a text that is no placeholder, that one of the grammars parses,
and for which `sscanf` stores an offset with none of the five patterns,
`sql_parse_time` yields the integer 0, not the local time: it logs that the
offset could not be parsed, unless `mktime` had already failed. -/
theorem sql_parse_time_no_offset (libc : Libc) (tm0 : tm) (string : CStr) (t : tm)
    (hplace : string ∉ time_placeholders)
    (hparse : (strptime_chain libc.strptime string time_grammars tm0).1 = some t)
    (hoff : ∀ pattern ∈ offset_patterns, libc.sscanf string pattern = none) :
    (sql_parse_time libc tm0 string).result = .int 0 ∧
      (to_int (libc.mktime t) ≠ -1 →
        (sql_parse_time libc tm0 string).scanned = offset_patterns ∧
        (sql_parse_time libc tm0 string).warning
          = some ("sql_parse_time: Failed to parse timezone offset: ".toList ++ string)) := by
  rw [sql_parse_time, if_neg (fun hp => hplace ((placeholder_test_iff string).mp hp))]
  cases hc : strptime_chain libc.strptime string time_grammars tm0 with
  | mk r attempted =>
    rw [hc] at hparse
    simp only at hparse
    subst hparse
    simp only [sql_parse_time_finish,
      sscanf_chain_all_none libc.sscanf string offset_patterns hoff]
    by_cases hm : to_int (libc.mktime t) = -1
    · simp [hm]
    · simp [hm]

/-- Witness of C14: the sample with date and time run together is parsed by
the first grammar, yet no pattern finds its offset; the result is 0, not the
local time 1312878034. -/
theorem sql_parse_time_no_offset_witness :
    sample_time_joined ∉ time_placeholders ∧
      (strptime_chain sample_libc.strptime sample_time_joined time_grammars blank_tm).1
        = some august_tm ∧
      (∀ pattern ∈ offset_patterns, sample_libc.sscanf sample_time_joined pattern = none) ∧
      (sql_parse_time sample_libc blank_tm sample_time_joined).result = .int 0 := by
  have hoff : ∀ pattern ∈ offset_patterns,
      sample_libc.sscanf sample_time_joined pattern = none := by
    intro pattern _
    have h1 : sample_time_joined ≠ sample_time := by decide
    show (if pattern = "%*u-%*u-%*u %*u:%*u:%*u %d%*[^]]".toList
        ∧ sample_time_joined = sample_time then some 200 else none) = none
    rw [if_neg (fun h => h1 h.2)]
  exact ⟨by decide, by decide, hoff,
    (sql_parse_time_no_offset sample_libc blank_tm sample_time_joined august_tm (by decide)
      (by decide) hoff).1⟩

/-- Converting with an offset and then with the opposite offset restores the
time, when nothing overflows. -/
theorem offset_to_utc_round_trip (e o : Int) (he : -2 ^ 31 ≤ e ∧ e < 2 ^ 31)
    (ho : -2 ^ 31 < o ∧ o < 2 ^ 31)
    (hlo : 0 < o → -2 ^ 31 ≤ e - offset_seconds o)
    (hhi : o < 0 → e + offset_seconds o < 2 ^ 31) :
    offset_to_utc (offset_to_utc e o) (-o) = e := by
  have hnn := offset_seconds_nonneg o
  rcases lt_trichotomy o 0 with hneg | hzero | hpos
  · rw [offset_to_utc_neg e o he hneg ho.1 (hhi hneg),
      offset_to_utc_pos _ (-o) ⟨by omega, hhi hneg⟩ (by omega)
        (by rw [offset_seconds_neg]; omega),
      offset_seconds_neg]
    omega
  · subst hzero
    simp [offset_to_utc]
  · rw [offset_to_utc_pos e o he hpos (hlo hpos),
      offset_to_utc_neg _ (-o) ⟨hlo hpos, by omega⟩ (by omega) (by omega)
        (by rw [offset_seconds_neg]; omega),
      offset_seconds_neg]
    omega

/-- C15: when a grammar has parsed the text into the local time `t` (the
`int` value of `mktime`, not -1) and a pattern has extracted the offset `o`,
and nothing overflows, `sql_parse_time` yields `t - (H * 3600 + M * 60)` for
`o > 0`, `t + (H * 3600 + M * 60)` for `o < 0` and `t` for `o = 0`, with
`H = |o| / 100` and `M = |o| mod 100`; converting with `o` and then with
`-o` restores `t`. -/
theorem sql_parse_time_offset (libc : Libc) (tm0 : tm) (string : CStr) (t : tm) (o : Int)
    (hplace : string ∉ time_placeholders)
    (hparse : (strptime_chain libc.strptime string time_grammars tm0).1 = some t)
    (hmk : to_int (libc.mktime t) ≠ -1)
    (hoff : (sscanf_chain libc.sscanf string offset_patterns).1 = some o)
    (ho : -2 ^ 31 < o ∧ o < 2 ^ 31)
    (hlo : 0 < o → -2 ^ 31 ≤ to_int (libc.mktime t) - offset_seconds o)
    (hhi : o < 0 → to_int (libc.mktime t) + offset_seconds o < 2 ^ 31) :
    (sql_parse_time libc tm0 string).result
        = .int (if 0 < o then to_int (libc.mktime t) - offset_seconds o
            else if o < 0 then to_int (libc.mktime t) + offset_seconds o
            else to_int (libc.mktime t)) ∧
      offset_to_utc (offset_to_utc (to_int (libc.mktime t)) o) (-o)
        = to_int (libc.mktime t) := by
  have he := to_int_range (libc.mktime t)
  refine ⟨?_, offset_to_utc_round_trip _ o he ho hlo hhi⟩
  rw [sql_parse_time, if_neg (fun hp => hplace ((placeholder_test_iff string).mp hp))]
  cases hc : strptime_chain libc.strptime string time_grammars tm0 with
  | mk r attempted =>
    rw [hc] at hparse
    simp only at hparse
    subst hparse
    cases hs : sscanf_chain libc.sscanf string offset_patterns with
    | mk r' scanned =>
      rw [hs] at hoff
      simp only at hoff
      subst hoff
      simp only [sql_parse_time_finish, hs, if_neg hmk]
      rcases lt_trichotomy o 0 with hneg | hzero | hpos
      · rw [offset_to_utc_neg _ o he hneg ho.1 (hhi hneg), if_neg (by omega), if_pos hneg]
      · subst hzero
        simp [offset_to_utc]
      · rw [offset_to_utc_pos _ o he hpos (hlo hpos), if_pos hpos]

/-- Witness of C15: the sample time, 08:20:34 two hours east of UTC, is
converted from the local 1312878034 to 1312870834. -/
theorem sql_parse_time_offset_witness :
    (sql_parse_time sample_libc blank_tm sample_time).result = .int (1312878034 - 7200) ∧
      offset_to_utc (offset_to_utc (to_int (sample_libc.mktime august_tm)) 200) (-200)
        = to_int (sample_libc.mktime august_tm) :=
  ⟨(sql_parse_time_offset sample_libc blank_tm sample_time august_tm 200 (by decide) (by decide)
      (by decide) (by decide) (by decide) (by intro _; decide) (by intro _; decide)).1.trans
      (by decide),
    (sql_parse_time_offset sample_libc blank_tm sample_time august_tm 200 (by decide) (by decide)
      (by decide) (by decide) (by decide) (by intro _; decide) (by intro _; decide)).2⟩

/-- C16, as stated, fails: with the format `%F %T %z`, `strptime` processes
only the beginning of the sample time and leaves ` (Tue, 09 Aug 2011)`
unprocessed, and still the first grammar wins: it is the only one tried and
`sql_parse_time` yields the converted time 1312870834. -/
theorem sql_parse_time_leftover_text_wins :
    (sample_libc.strptime sample_time "%F %T %z".toList blank_tm).1
        = some " (Tue, 09 Aug 2011)".toList ∧
      sql_parse_time sample_libc blank_tm sample_time
        = { result := .int 1312870834
            attempted := ["%F %T %z".toList]
            scanned := ["%*u-%*u-%*u %*u:%*u:%*u %d%*[^]]".toList]
            warning := none } := by
  constructor <;> decide

/-- C16, amended: `sql_parse_time` hands the five grammars to `strptime` in
the listed order and stops at the first call that returns a pointer, whatever
text that pointer leaves unprocessed: the fields are those which that call
left in `tm`, the grammars tried are those up to it, and no later grammar is
consulted. -/
theorem sql_parse_time_first_grammar (libc : Libc) (tm0 : tm) (string : CStr)
    (pre : List CStr) (format : CStr) (post : List CStr) (rest : CStr)
    (hplace : string ∉ time_placeholders)
    (hsplit : time_grammars = pre ++ format :: post)
    (hpre : ∀ g ∈ pre, ∀ t, (libc.strptime string g t).1 = none)
    (hwin : (libc.strptime string format (thread_tm libc.strptime string pre tm0)).1
      = some rest) :
    sql_parse_time libc tm0 string
        = sql_parse_time_finish libc string
            (libc.strptime string format (thread_tm libc.strptime string pre tm0)).2
            (pre ++ [format]) ∧
      (sql_parse_time libc tm0 string).attempted = pre ++ [format] := by
  have hmain : sql_parse_time libc tm0 string
      = sql_parse_time_finish libc string
          (libc.strptime string format (thread_tm libc.strptime string pre tm0)).2
          (pre ++ [format]) := by
    rw [sql_parse_time, if_neg (fun hp => hplace ((placeholder_test_iff string).mp hp)), hsplit,
      strptime_chain_first libc.strptime string pre format post rest hpre tm0 hwin]
  refine ⟨hmain, ?_⟩
  rw [hmain]
  simp only [sql_parse_time_finish]
  split
  · rfl
  · split <;> rfl

/-- Witness of C16: on the sample time the first grammar is the one that wins,
with text left over. -/
theorem sql_parse_time_first_grammar_witness :
    (sql_parse_time sample_libc blank_tm sample_time).attempted = [] ++ ["%F %T %z".toList] :=
  (sql_parse_time_first_grammar sample_libc blank_tm sample_time [] "%F %T %z".toList
    [ "$Date: %F %T %z".toList, "%a %b %d %T %Y %z".toList,
      "$Date: %a, %d %b %Y %T %z".toList, "$Date: %a %b %d %T %Y %z".toList ]
    " (Tue, 09 Aug 2011)".toList (by decide) (by decide)
    (by intro g hg; exact absurd hg (List.not_mem_nil g)) (by decide)).2

/-- C17: whatever the period, the months of the period and the current time,
the SQL function `next_time` yields 0 for a first time of 0. -/
theorem sql_next_time_first_zero (next_month_time : Int → Int → Int → Int)
    (now period period_months : Int) :
    next_time next_month_time now 0 period period_months = 0 ∧
      sql_next_time (next_time next_month_time now) 0 period period_months = .int 0 := by
  have h : next_time next_month_time now 0 period period_months = 0 := by
    simp [next_time]
  refine ⟨h, ?_⟩
  rw [sql_next_time, h]
  rfl

/-- C18: for a first time other than 0, a period above 0 and no months,
`next_time` is `first + k * period` for the least `k ≥ 0` that makes it
strictly greater than `now`; a daily schedule seen 3 days and 10 seconds after
its first time is next due 4 days after its first time. -/
theorem next_time_least_period (next_month_time : Int → Int → Int → Int)
    (now first period : Int) (hfirst : first ≠ 0) (hperiod : 0 < period) :
    (∃ k : Nat, next_time next_month_time now first period 0 = first + k * period ∧
        now < first + k * period ∧
        ∀ j : Nat, now < first + j * period → k ≤ j) ∧
      next_time next_month_time (first + 86400 * 3 + 10) first 86400 0 = first + 86400 * 4 := by
  constructor
  · by_cases hfut : first > now
    · refine ⟨0, ?_, ?_, fun j _ => Nat.zero_le j⟩
      · simp [next_time, hfirst, hperiod, hfut]
      · simpa using hfut
    · have hle : first ≤ now := not_lt.mp hfut
      have hq : 0 ≤ (now - first) / period := Int.ediv_nonneg (by omega) (le_of_lt hperiod)
      have hup := Int.lt_ediv_add_one_mul_self (now - first) hperiod
      have hdown := Int.ediv_mul_le (now - first) (ne_of_gt hperiod)
      refine ⟨((now - first) / period + 1).toNat, ?_, ?_, ?_⟩
      · have hcast : ((((now - first) / period + 1).toNat : Nat) : Int)
            = (now - first) / period + 1 := Int.toNat_of_nonneg (by omega)
        rw [hcast]
        simp [next_time, hfirst, hperiod, hfut]
      · have hcast : ((((now - first) / period + 1).toNat : Nat) : Int)
            = (now - first) / period + 1 := Int.toNat_of_nonneg (by omega)
        rw [hcast]
        omega
      · intro j hj
        have hjq : (now - first) / period * period < (j : Int) * period := by omega
        have hlt : (now - first) / period < (j : Int) := lt_of_mul_lt_mul_right hjq
          (le_of_lt hperiod)
        omega
  · have hdiv : (first + 86400 * 3 + 10 - first) / 86400 = 3 := by
      have : first + 86400 * 3 + 10 - first = 259210 := by ring
      rw [this]
      decide
    have hnot : ¬ first > first + 86400 * 3 + 10 := by omega
    simp only [next_time, hfirst, if_false, lt_irrefl, gt_iff_lt, hnot, hdiv]
    norm_num

/-- Witness of C18: first time 1000, daily, seen at `1000 + 86400 * 3 + 10`. -/
theorem next_time_least_period_witness :
    next_time (fun _ _ _ => 0) (1000 + 86400 * 3 + 10) 1000 86400 0 = 1000 + 86400 * 4 :=
  (next_time_least_period (fun _ _ _ => 0) (1000 + 86400 * 3 + 10) 1000 86400 (by decide)
    (by decide)).2

/-! ## Severity constants -/

/-- C19, as stated, fails: the reserved constant `SEVERITY_LOG` is 0.0, which
lies on the scale from 0 to `SEVERITY_MAX`, at its lower end. -/
theorem severity_log_on_scale :
    SEVERITY_LOG ∈ severity_sentinels ∧ 0 ≤ SEVERITY_LOG ∧ SEVERITY_LOG ≤ SEVERITY_MAX := by
  refine ⟨by simp [severity_sentinels], ?_, ?_⟩ <;> norm_num [SEVERITY_LOG, SEVERITY_MAX]

/-- C19, amended: `SEVERITY_MAX` is 10; the reserved constants for false
positives, debug messages, errors, missing and undefined severities are below
0 and so outside the scale from 0 to `SEVERITY_MAX`; `SEVERITY_LOG` is 0, the
lower end of the scale, so that no reserved constant is a score above 0; and
the six reserved constants are pairwise distinct. -/
theorem severity_sentinels_off_scale :
    SEVERITY_MAX = 10 ∧ SEVERITY_LOG = 0 ∧
      SEVERITY_FP < 0 ∧ SEVERITY_DEBUG < 0 ∧ SEVERITY_ERROR < 0 ∧ SEVERITY_MISSING < 0 ∧
      SEVERITY_UNDEFINED < 0 ∧
      (∀ s : ℚ, 0 < s ∧ s ≤ SEVERITY_MAX → s ∉ severity_sentinels) ∧
      severity_sentinels.Nodup := by
  refine ⟨?_, ?_, ?_, ?_, ?_, ?_, ?_, ?_, ?_⟩
  · norm_num [SEVERITY_MAX]
  · norm_num [SEVERITY_LOG]
  · norm_num [SEVERITY_FP]
  · norm_num [SEVERITY_DEBUG]
  · norm_num [SEVERITY_ERROR]
  · norm_num [SEVERITY_MISSING]
  · norm_num [SEVERITY_UNDEFINED]
  · intro s hs hmem
    simp only [severity_sentinels, SEVERITY_LOG, SEVERITY_FP, SEVERITY_DEBUG, SEVERITY_ERROR,
      SEVERITY_MISSING, SEVERITY_UNDEFINED, List.mem_cons, List.mem_singleton,
      List.not_mem_nil, or_false] at hmem
    rcases hmem with h | h | h | h | h | h <;> rw [h] at hs <;> norm_num at hs
  · simp only [severity_sentinels, SEVERITY_LOG, SEVERITY_FP, SEVERITY_DEBUG, SEVERITY_ERROR,
      SEVERITY_MISSING, SEVERITY_UNDEFINED]
    norm_num

/-- Witness of C19: the score 5 is on the scale and is no reserved constant. -/
theorem severity_sentinels_off_scale_witness :
    ((0 : ℚ) < 5 ∧ (5 : ℚ) ≤ SEVERITY_MAX) ∧ (5 : ℚ) ∉ severity_sentinels :=
  ⟨by norm_num [SEVERITY_MAX],
    severity_sentinels_off_scale.2.2.2.2.2.2.2.1 5 (by norm_num [SEVERITY_MAX])⟩

/-! ## Number of hosts -/

/-- What `%i` prints for an `int` is its decimal rendering. -/
theorem printf_i_eq_decimal (v : Int) (hlo : -2 ^ 31 ≤ v) (hhi : v < 2 ^ 31) :
    printf_i (v % 2 ^ 32).toNat = decimal v := by
  unfold printf_i decimal
  by_cases hneg : v < 0
  · have hmod : v % 2 ^ 32 = v + 2 ^ 32 := by
      rw [← Int.add_emod_self, Int.emod_eq_of_lt (by omega) (by omega)]
    have hnat : (v % 2 ^ 32).toNat = (v + 2 ^ 32).toNat := by rw [hmod]
    have hlt : (v + 2 ^ 32).toNat < 2 ^ 32 := by omega
    rw [hnat, Nat.mod_eq_of_lt hlt, if_neg (by omega), if_pos hneg]
    congr 2
    omega
  · have hmod : v % 2 ^ 32 = v := Int.emod_eq_of_lt (by omega) (by omega)
    have hlt : v.toNat < 2 ^ 32 := by omega
    rw [hmod, Nat.mod_eq_of_lt hlt, if_pos (by omega), if_neg hneg]
    congr 1
    omega

/-- C20: whatever the excluded hosts, `sql_max_hosts` yields the text `0`, not
an error, when the hosts are SQL NULL and when they are the empty text; for
hosts that are present it yields the decimal rendering of the count that
`manage_count_hosts` returns for the hosts and the excluded hosts. -/
theorem sql_max_hosts_count (expand : CStr → Option CStr → Int)
    (exclude_hosts : Option CStr) :
    sql_max_hosts (manage_count_hosts expand) none exclude_hosts = .text "0".toList ∧
      sql_max_hosts (manage_count_hosts expand) (some "".toList) exclude_hosts
        = .text "0".toList ∧
      (∀ (count_hosts : CStr → Option CStr → Int) (hosts : CStr),
        -2 ^ 31 ≤ count_hosts hosts exclude_hosts → count_hosts hosts exclude_hosts < 2 ^ 31 →
        sql_max_hosts count_hosts (some hosts) exclude_hosts
          = .text (decimal (count_hosts hosts exclude_hosts))) := by
  refine ⟨rfl, ?_, ?_⟩
  · have h0 : manage_count_hosts expand "".toList exclude_hosts = 0 := by
      simp [manage_count_hosts]
    rw [sql_max_hosts, h0]
    decide
  · intro count_hosts hosts hlo hhi
    rw [sql_max_hosts, printf_i_eq_decimal _ hlo hhi]

/-- Witness of C20: the two hosts of `a.com,b.com` are counted and printed as
`2`. -/
theorem sql_max_hosts_count_witness :
    sql_max_hosts (manage_count_hosts example_expand) (some "a.com,b.com".toList) none
      = .text "2".toList :=
  ((sql_max_hosts_count example_expand none).2.2 (manage_count_hosts example_expand)
    "a.com,b.com".toList (by decide) (by decide)).trans (by decide)

/-! ## Column rename -/

/-- After the first column, each round of the loop appends a separator and a
name to both strings. -/
theorem sql_rename_column_loop_rest (old_name new_name : CStr) (names : List CStr)
    (one two : CStr) :
    sql_rename_column_loop old_name new_name names one two false
      = (one ++ ((renamed_columns old_name new_name names).map (", ".toList ++ ·)).flatten,
          two ++ (names.map (", ".toList ++ ·)).flatten) := by
  induction names generalizing one two with
  | nil => simp [sql_rename_column_loop, renamed_columns]
  | cons name rest ih =>
    rw [sql_rename_column_loop]
    simp only [Bool.false_eq_true, if_false]
    rw [ih]
    simp [renamed_columns, List.append_assoc]

/-- Joining with a separator: the first element, then each other element
behind a separator. -/
theorem intercalate_cons (sep x : CStr) (xs : List CStr) :
    List.intercalate sep (x :: xs) = x ++ (xs.map (sep ++ ·)).flatten := by
  induction xs generalizing x with
  | nil => simp [List.intercalate, List.intersperse]
  | cons y ys ih =>
    have h := ih y
    simp only [List.intercalate, List.intersperse, List.flatten_cons, List.map_cons,
      List.append_assoc] at h ⊢
    rw [h]

/-- The loop of `sql_rename_column`, entered before the first column, appends
to the one string the destination names and to the other the source names,
each joined by `, `. -/
theorem sql_rename_column_loop_eq (old_name new_name : CStr) (names : List CStr)
    (one two : CStr) :
    sql_rename_column_loop old_name new_name names one two true
      = (one ++ List.intercalate ", ".toList (renamed_columns old_name new_name names),
          two ++ List.intercalate ", ".toList names) := by
  cases names with
  | nil => simp [sql_rename_column_loop, renamed_columns, List.intercalate]
  | cons name rest =>
    rw [sql_rename_column_loop]
    simp only [if_true]
    rw [sql_rename_column_loop_rest]
    have hr : renamed_columns old_name new_name (name :: rest)
        = (if name = old_name then new_name else name)
          :: renamed_columns old_name new_name rest := rfl
    rw [hr, intercalate_cons, intercalate_cons]
    simp [List.append_assoc]

/-- C21: from the column names of the sample row, `sql_rename_column` builds
the list of destination names and the list of source names, each joined by
`, `: both have the length of the input, the source entry at every position
is the input name there, and the destination entry is the new name where the
input name is the old name and the input name elsewhere. -/
theorem sql_rename_column_lists (old_name new_name : CStr) (names : List CStr)
    (one two : CStr) :
    sql_rename_column_loop old_name new_name names one two true
        = (one ++ List.intercalate ", ".toList (renamed_columns old_name new_name names),
            two ++ List.intercalate ", ".toList names) ∧
      (renamed_columns old_name new_name names).length = names.length ∧
      ∀ i : Nat,
        (renamed_columns old_name new_name names)[i]?
          = names[i]?.map fun name => if name = old_name then new_name else name := by
  refine ⟨sql_rename_column_loop_eq old_name new_name names one two, ?_, ?_⟩
  · simp [renamed_columns]
  · intro i
    simp [renamed_columns]

/-- C22: when the old table has no row, `sql_rename_column` hands no statement
to `sql`, whatever the tables and the names. -/
theorem sql_rename_column_empty (old_table new_table old_name new_name : CStr) :
    sql_rename_column none old_table new_table old_name new_name = [] := rfl

/-- C23: when the old table has a row, `sql_rename_column` hands exactly one
statement to `sql`, `INSERT INTO <new_table> (<d1>, ..., <dn>) SELECT <s1>,
..., <sn> FROM <old_table>;`, with the destination names and the source names
each joined by `, ` in the order of the columns; renaming `name` to `title`
over the columns `id`, `name`, `comment` gives
`INSERT INTO t2 (id, title, comment) SELECT id, name, comment FROM t1;`. -/
theorem sql_rename_column_statement (names : List CStr)
    (old_table new_table old_name new_name : CStr) :
    sql_rename_column (some names) old_table new_table old_name new_name
        = [ "INSERT INTO ".toList ++ new_table ++ " (".toList
            ++ List.intercalate ", ".toList (renamed_columns old_name new_name names)
            ++ ") SELECT ".toList ++ List.intercalate ", ".toList names
            ++ " FROM ".toList ++ old_table ++ ";".toList ] ∧
      sql_rename_column (some ["id".toList, "name".toList, "comment".toList])
          "t1".toList "t2".toList "name".toList "title".toList
        = [ "INSERT INTO t2 (id, title, comment) SELECT id, name, comment FROM t1;".toList ] := by
  refine ⟨?_, by decide⟩
  simp only [sql_rename_column, sql_rename_column_loop_eq, List.append_assoc]
  rfl

/-! ## Resources -/

/-- C24: for a type that is present and that `valid_db_resource_type` does not
recognise, `sql_resource_exists` yields an SQL error for every resource,
0 included, and every location. -/
theorem sql_resource_exists_invalid_type (valid_db_resource_type : CStr → Int)
    (resource_exists : CStr → Int → Int → Int) (type : CStr) (resource location : Int)
    (hinvalid : valid_db_resource_type type = 0) :
    sql_resource_exists valid_db_resource_type resource_exists (some type) resource location
      = .error "Invalid resource type argument".toList := by
  simp [sql_resource_exists, hinvalid]

/-- Witness of C24: the type `widget` is not recognised; resource 0 gives the
error. -/
theorem sql_resource_exists_invalid_type_witness :
    sql_resource_exists (fun type => if type = "task".toList then 1 else 0) (fun _ _ _ => 1)
        (some "widget".toList) 0 0
      = .error "Invalid resource type argument".toList :=
  sql_resource_exists_invalid_type (fun type => if type = "task".toList then 1 else 0)
    (fun _ _ _ => 1) "widget".toList 0 0 (by decide)

/-- C25, as stated, fails: `resource_name` rejects the type `widget` for every
id, and still `sql_resource_name` yields SQL NULL, not an error, for the type
`widget` with an id that is SQL NULL. -/
theorem sql_resource_name_null_id :
    (∀ (id : CStr) (location : Int),
        (example_resource_name "widget".toList id location).1 ≠ 0) ∧
      sql_resource_name example_resource_name (some "widget".toList) none 0 = .null := by
  refine ⟨?_, rfl⟩
  intro id location
  have h : "widget".toList ≠ "task".toList := by decide
  simp [example_resource_name, h]

/-- C25, amended: for a type that is present and that `resource_name` rejects,
`sql_resource_name` yields an SQL error for every id that is present and
every location; when the id is SQL NULL it yields SQL NULL, whatever the
type, and the type is not examined. -/
theorem sql_resource_name_invalid_type
    (resource_name : CStr → CStr → Int → Int × Option CStr) (type : CStr) (location : Int) :
    (∀ id : CStr, (resource_name type id location).1 ≠ 0 →
        sql_resource_name resource_name (some type) (some id) location
          = .error ("Invalid resource type argument: ".toList ++ type)) ∧
      sql_resource_name resource_name (some type) none location = .null := by
  refine ⟨?_, rfl⟩
  intro id h
  simp [sql_resource_name, h]

/-- Witness of C25: the type `widget` with the id `7` gives the error. -/
theorem sql_resource_name_invalid_type_witness :
    (example_resource_name "widget".toList "7".toList 0).1 ≠ 0 ∧
      sql_resource_name example_resource_name (some "widget".toList) (some "7".toList) 0
        = .error "Invalid resource type argument: widget".toList :=
  ⟨by decide,
    (sql_resource_name_invalid_type example_resource_name "widget".toList 0).1 "7".toList
      (by decide)⟩

/-! ## Tasks and reports -/

/-- C26: an id of 0 yields the neutral value with no call of a collaborator
and no error: the empty text for `sql_task_trend`, `sql_threat_level`,
`sql_task_severity`, `sql_report_severity` and `sql_report_severity_count`,
and -1 for `sql_report_progress`; the severity cache is left as it was. -/
theorem id_zero_neutral {D : Type} (m : Manage D) (ctx : CacheCtx) (overrides : Int)
    (level : Option CStr) :
    sql_task_trend m 0 overrides = { result := .text "".toList, calls := [] } ∧
      sql_threat_level m ctx 0 overrides = ({ result := .text "".toList, calls := [] }, ctx) ∧
      sql_task_severity m ctx 0 overrides
        = ({ result := .plain (.text "".toList), calls := [] }, ctx) ∧
      sql_report_severity m 0 overrides
        = { result := .plain (.text "".toList), calls := [] } ∧
      sql_report_severity_count m 0 overrides level
        = { result := .text "".toList, calls := [] } ∧
      sql_report_progress m 0 = { result := .int (-1), calls := [] } := by
  refine ⟨?_, ?_, ?_, ?_, ?_, ?_⟩
  · simp [sql_task_trend]
  · simp [sql_threat_level]
  · simp [sql_task_severity]
  · simp [sql_report_severity]
  · simp [sql_report_severity_count]
  · simp [sql_report_progress]

/-! ## Missing arguments -/

/-- C27: `sql_hosts_contains` yields an SQL error exactly when the hosts or the
host are SQL NULL; `sql_clean_hosts` yields an SQL error exactly when the
hosts are SQL NULL; and `sql_uniquify` yields an SQL error whenever the type,
the proposed name or the suffix is SQL NULL, the same error whatever the
existence check would say and with no probe allowed. -/
theorem missing_text_is_error (hosts host : Option CStr) (clean_hosts : CStr → Option CStr)
    (type proposed_name suffix : Option CStr) (owner : Option Int) :
    (is_error (sql_hosts_contains hosts host) = true ↔ hosts = none ∨ host = none) ∧
      (is_error (sql_clean_hosts clean_hosts hosts) = true ↔ hosts = none) ∧
      (type = none ∨ proposed_name = none ∨ suffix = none →
        ∃ msg : CStr, ∀ (sql_int : CStr → CStr → Nat → Int) (fuel : Nat),
          sql_uniquify sql_int fuel type proposed_name owner suffix = some (.error msg)) := by
  refine ⟨?_, ?_, ?_⟩
  · cases hosts <;> cases host <;> simp [sql_hosts_contains, is_error]
  · cases hosts with
    | none => simp [sql_clean_hosts, is_error]
    | some h =>
      cases hc : clean_hosts h <;> simp [sql_clean_hosts, is_error, hc]
  · intro h
    cases type with
    | none => exact ⟨_, fun _ _ => rfl⟩
    | some type =>
      cases proposed_name with
      | none => exact ⟨_, fun _ _ => rfl⟩
      | some proposed_name =>
        cases suffix with
        | none => exact ⟨_, fun _ _ => rfl⟩
        | some suffix => simp at h

/-- Witness of C27: without a suffix, `sql_uniquify` yields the error about the
suffix, even when it may make no probe. -/
theorem missing_text_is_error_witness :
    ((some "task".toList : Option CStr) = none ∨ (some "Task".toList : Option CStr) = none
        ∨ (none : Option CStr) = none) ∧
      ∃ msg : CStr, ∀ (sql_int : CStr → CStr → Nat → Int) (fuel : Nat),
        sql_uniquify sql_int fuel (some "task".toList) (some "Task".toList) (some 7) none
          = some (.error msg) :=
  ⟨Or.inr (Or.inr rfl),
    (missing_text_is_error none none (fun hosts => some hosts) (some "task".toList)
      (some "Task".toList) none (some 7)).2.2 (Or.inr (Or.inr rfl))⟩

/-! ## Common CVE -/

/-- C28: evaluation at the input on which the claim fails.  `CVE-2` is an
element of both `CVE-1,CVE-2` and `CVE-2`, yet `sql_common_cve` yields 0 for
the two lists in this order, and 1 for them in the other order. -/
theorem sql_common_cve_second_element_missed :
    "CVE-2".toList ∈ (commaTokens "CVE-1,CVE-2".toList).map trimmed ∧
      "CVE-2".toList ∈ (commaTokens "CVE-2".toList).map trimmed ∧
      sql_common_cve (some "CVE-1,CVE-2".toList) (some "CVE-2".toList) = .int 0 ∧
      sql_common_cve (some "CVE-2".toList) (some "CVE-1,CVE-2".toList) = .int 1 := by
  refine ⟨by decide, by decide, by decide, by decide⟩

/-! ## Consistency of the severity cache -/

/-- C29: when each slot of the cache is empty (task 0) or holds the severity
`task_severity` returns for its task with the flag of the slot, the same
holds after any call of `cached_task_severity`, whether it hits, misses with
a cache present or sets the cache up, and after `clear_cache`. -/
theorem cache_consistent_preserved (task_severity : task_t → Int → Option CStr)
    (ctx : CacheCtx) (task : task_t) (f : Bool)
    (h : CacheConsistent task_severity ctx.static_cache) :
    CacheConsistent task_severity
        (cached_task_severity task_severity ctx task (flagInt f)).ctx.static_cache ∧
      CacheConsistent task_severity (clear_cache ctx.static_cache) ∧
      CacheConsistent task_severity (end_statement ctx).static_cache := by
  have hplain := h false
  have hover := h true
  simp only [slotTask, slotSeverity, flagInt, Bool.false_eq_true, if_false, if_true]
    at hplain hover
  refine ⟨?_, ?_, ?_⟩
  · intro g
    unfold cached_task_severity
    cases f <;> cases g <;> by_cases ha : ctx.auxdata = true <;>
      simp only [slotTask, slotSeverity, flagInt, ha, Bool.false_eq_true, if_false, if_true,
        ne_eq, one_ne_zero, not_true_eq_false, not_false_eq_true] <;>
      (try split) <;> simp_all
  · intro g
    cases g <;> simp [clear_cache, slotTask]
  · intro g
    unfold end_statement
    by_cases ha : ctx.auxdata = true
    · cases g <;> simp [ha, clear_cache, slotTask]
    · cases g <;> simp_all [slotTask, slotSeverity, flagInt]

/-- Witness of C29: the cache left by the call for task 3 without overrides is
consistent, and stays so after the call for task 5 with overrides. -/
theorem cache_consistent_preserved_witness :
    CacheConsistent exampleSeverity
        (cached_task_severity exampleSeverity freshCtx 3 0).ctx.static_cache ∧
      CacheConsistent exampleSeverity
        (cached_task_severity exampleSeverity
          (cached_task_severity exampleSeverity freshCtx 3 0).ctx 5 (flagInt true)).ctx.static_cache := by
  have h : CacheConsistent exampleSeverity
      (cached_task_severity exampleSeverity freshCtx 3 0).ctx.static_cache := by
    intro g
    cases g <;> decide
  exact ⟨h, (cache_consistent_preserved exampleSeverity
    (cached_task_severity exampleSeverity freshCtx 3 0).ctx 5 true h).1⟩

/-! ## Tags -/

/-- The test of `sql_tag` on an element holds exactly when the element is the
tag, then `=`, then some value. -/
theorem sql_tag_test_iff (tag point : CStr) :
    (point.length > tag.length ∧ point.take tag.length = tag ∧ point[tag.length]? = some '=')
      ↔ ∃ value, point = tag ++ '=' :: value := by
  constructor
  · rintro ⟨_, htake, hget⟩
    refine ⟨point.drop (tag.length + 1), ?_⟩
    have h1 : point = point.take tag.length ++ point.drop tag.length :=
      (List.take_append_drop _ _).symm
    have h2 : point.drop tag.length = '=' :: point.drop (tag.length + 1) := by
      rw [List.getElem?_eq_some_iff] at hget
      obtain ⟨hlt, hg⟩ := hget
      rw [← hg]
      exact List.drop_eq_getElem_cons hlt
    rw [h2, htake] at h1
    exact h1
  · rintro ⟨value, rfl⟩
    refine ⟨by simp, by simp, ?_⟩
    rw [List.getElem?_append_right (Nat.le_refl _)]
    simp

/-- The loop of `sql_tag` returns the value of the first element of the form
`tag=value`. -/
theorem sql_tag_loop_found (tag value : CStr) (pre post : List CStr)
    (hpre : ∀ p ∈ pre, ¬ ∃ v, p = tag ++ '=' :: v) :
    sql_tag_loop tag (pre ++ (tag ++ '=' :: value) :: post) = value := by
  induction pre with
  | nil =>
    rw [List.nil_append, sql_tag_loop, if_pos ((sql_tag_test_iff tag _).mpr ⟨value, rfl⟩)]
    simp [List.drop_append]
  | cons p ps ih =>
    have hp := hpre p (List.mem_cons_self _ _)
    rw [List.cons_append, sql_tag_loop,
      if_neg (fun h => hp ((sql_tag_test_iff tag p).mp h))]
    exact ih (fun q hq => hpre q (List.mem_cons_of_mem _ hq))

/-- The loop of `sql_tag` returns the empty text when no element has the form
`tag=value`. -/
theorem sql_tag_loop_none (tag : CStr) (points : List CStr)
    (hnone : ∀ p ∈ points, ¬ ∃ v, p = tag ++ '=' :: v) :
    sql_tag_loop tag points = [] := by
  induction points with
  | nil => rfl
  | cons p ps ih =>
    have hp := hnone p (List.mem_cons_self _ _)
    rw [sql_tag_loop, if_neg (fun h => hp ((sql_tag_test_iff tag p).mp h))]
    exact ih (fun q hq => hnone q (List.mem_cons_of_mem _ hq))

/-- What the loop of `sql_tag` returns is empty or the end of an element. -/
theorem sql_tag_loop_suffix (tag : CStr) (points : List CStr) :
    sql_tag_loop tag points = [] ∨ ∃ p ∈ points, sql_tag_loop tag points <:+ p := by
  induction points with
  | nil => exact Or.inl rfl
  | cons p ps ih =>
    rw [sql_tag_loop]
    split
    · exact Or.inr ⟨p, List.mem_cons_self _ _, List.drop_suffix _ _⟩
    · rcases ih with h | ⟨q, hq, hs⟩
      · exact Or.inl h
      · exact Or.inr ⟨q, List.mem_cons_of_mem _ hq, hs⟩

/-- No piece of a split contains the delimiter. -/
theorem g_strsplit_pieces_no_delimiter (d : Char) (s : CStr) :
    ∀ p ∈ g_strsplit_pieces d s, d ∉ p := by
  induction s with
  | nil => simp [g_strsplit_pieces]
  | cons c cs ih =>
    intro p hp
    rw [g_strsplit_pieces] at hp
    by_cases hc : c = d
    · rw [if_pos hc, List.mem_cons] at hp
      rcases hp with rfl | hp
      · simp
      · exact ih p hp
    · rw [if_neg hc] at hp
      cases hs : g_strsplit_pieces d cs with
      | nil =>
        rw [hs] at hp
        simp only [List.mem_singleton] at hp
        subst hp
        simpa using fun h => hc h.symm
      | cons piece pieces =>
        rw [hs] at hp ih
        simp only [List.mem_cons] at hp
        rcases hp with rfl | hp
        · have := ih piece (List.mem_cons_self _ _)
          simp only [List.mem_cons, not_or]
          exact ⟨fun h => hc h.symm, this⟩
        · exact ih p (List.mem_cons_of_mem _ hp)

/-- The vector of `g_strsplit` and the entries between the bars give the same
answer in `sql_tag`: the one empty entry of the empty list matches no tag. -/
theorem sql_tag_loop_split (tag tags : CStr) :
    sql_tag_loop tag (g_strsplit tags '|') = sql_tag_loop tag (tags.splitOn '|') := by
  unfold g_strsplit
  by_cases h : tags = []
  · subst h
    simp [sql_tag_loop]
  · rw [if_neg h, g_strsplit_pieces_eq_splitOn]

/-- C30: for a tag list and a tag name that are present, `sql_tag` yields the
text after `tag=` in the first of the entries between the bars that has the
form `tag=value`, and the empty text when no entry has that form, so that an
entry that only starts with the tag name, or is the tag name alone, is not
matched; and the text it yields contains no bar. -/
theorem sql_tag_first_entry (tags tag : CStr) :
    (∀ (pre post : List CStr) (value : CStr),
        tags.splitOn '|' = pre ++ (tag ++ '=' :: value) :: post →
        (∀ p ∈ pre, ¬ ∃ v, p = tag ++ '=' :: v) →
        sql_tag (some tags) (some tag) = .text value) ∧
      ((∀ p ∈ tags.splitOn '|', ¬ ∃ v, p = tag ++ '=' :: v) →
        sql_tag (some tags) (some tag) = .text "".toList) ∧
      (∀ value : CStr, sql_tag (some tags) (some tag) = .text value → '|' ∉ value) := by
  have hdef : sql_tag (some tags) (some tag) = .text (sql_tag_loop tag (tags.splitOn '|')) := by
    simp only [sql_tag, sql_tag_loop_split]
  refine ⟨?_, ?_, ?_⟩
  · intro pre post value hsplit hpre
    rw [hdef, hsplit, sql_tag_loop_found tag value pre post hpre]
  · intro hnone
    rw [hdef, sql_tag_loop_none tag _ hnone]
    rfl
  · intro value hvalue
    have hv : value = sql_tag_loop tag (g_strsplit tags '|') := by
      simp only [sql_tag, SqlResult.text.injEq] at hvalue
      exact hvalue.symm
    rcases sql_tag_loop_suffix tag (g_strsplit tags '|') with h | ⟨p, hp, hs⟩
    · rw [hv, h]
      simp
    · rw [hv]
      have hpieces : ∀ q ∈ g_strsplit tags '|', '|' ∉ q := by
        intro q hq
        unfold g_strsplit at hq
        by_cases ht : tags = []
        · rw [if_pos ht] at hq
          simp at hq
        · rw [if_neg ht] at hq
          exact g_strsplit_pieces_no_delimiter '|' tags q hq
      exact fun hmem => hpieces p hp (hs.subset hmem)

/-- Witness of C30: in `cvss=7.5|cve=CVE-1|cv=x` the tag `cve` has the value
`CVE-1`; the entry for `cvss` before it is not of the form `cve=value`. -/
theorem sql_tag_first_entry_witness :
    "cvss=7.5|cve=CVE-1|cv=x".toList.splitOn '|'
        = ["cvss=7.5".toList] ++ ("cve".toList ++ '=' :: "CVE-1".toList) :: ["cv=x".toList] ∧
      sql_tag (some "cvss=7.5|cve=CVE-1|cv=x".toList) (some "cve".toList)
        = .text "CVE-1".toList :=
  ⟨by decide,
    (sql_tag_first_entry "cvss=7.5|cve=CVE-1|cv=x".toList "cve".toList).1
      ["cvss=7.5".toList] ["cv=x".toList] "CVE-1".toList (by decide)
      (by
        intro p hp
        rw [List.mem_singleton] at hp
        subst hp
        rintro ⟨v, hv⟩
        have h4 := congrArg (fun l => l[2]?) hv
        simp at h4)⟩

end ManageSqlite3
